import Mathlib

/-!
Verification development for the agent-manager orchestrator core.

The definitions below are a shallow embedding of the TypeScript sources:
`src/orchestrator/stateMachine.ts`, `src/orchestrator/types.ts`,
`src/orchestrator/dispatcher.ts`, the orchestrator facade,
`src/logic/schemas.ts`, `src/logic/planner.ts` and `src/logic/decision.ts`.
Dynamic JSON values are embedded as the inductive type `Jsonish`;
external library calls (node `crypto` SHA-256 digests and `randomUUID`)
are abstracted as an `Env` of deterministic function parameters, since
they are not part of the repository.  Machine integers do not occur:
all counters are natural numbers in the source (array lengths and
versions), so `Nat` is used directly.
-/

namespace AgentManager

/-- Dynamic JSON-like values (TypeScript `Record<string, unknown>` and
friends).  Objects are insertion-ordered association lists, matching
JavaScript object semantics.  Numbers are embedded as integers; no code
path relevant to the claims inspects fractional values. -/
inductive Jsonish where
  | null : Jsonish
  | bool (b : Bool) : Jsonish
  | num (n : Int) : Jsonish
  | str (s : String) : Jsonish
  | arr (elems : List Jsonish) : Jsonish
  | obj (fields : List (String × Jsonish)) : Jsonish
deriving Repr

instance : Inhabited Jsonish := ⟨Jsonish.null⟩

/-- Field lookup on a JSON object: the first binding wins, mirroring
JavaScript property access (objects built by the code never hold
duplicate keys).  A non-object has no fields. -/
def Jsonish.get : Jsonish → String → Option Jsonish
  | .obj fields, key => (fields.find? (fun p => p.1 == key)).map (·.2)
  | _, _ => none

/-- JavaScript truthiness of a value (`undefined` is represented by
`Option.none` at use sites). -/
def Jsonish.truthy : Jsonish → Bool
  | .null => false
  | .bool b => b
  | .num n => n != 0
  | .str s => s != ""
  | .arr _ => true
  | .obj _ => true

/-- Truthiness of an optional value, `none` standing for `undefined`. -/
def jsTruthy : Option Jsonish → Bool
  | none => false
  | some j => j.truthy

/-- Setting a key on a JavaScript object via spread
(`\x7b...r, [k]: v\x7d`): an existing key keeps its position and
receives the new value, a fresh key is appended. -/
def recordSet {α : Type} (r : List (String × α)) (k : String) (v : α) :
    List (String × α) :=
  if r.any (fun p => p.1 == k) then
    r.map (fun p => if p.1 == k then (k, v) else p)
  else
    r ++ [(k, v)]

/-- Lookup in an insertion-ordered string-keyed record. -/
def recordGet {α : Type} (r : List (String × α)) (k : String) : Option α :=
  (r.find? (fun p => p.1 == k)).map (·.2)

/-! ## Core data model (`src/orchestrator/types.ts`) -/

inductive ProjectPhase where
  | idle | planning | awaiting_clarification | awaiting_approval
  | awaiting_execution_approval | executing | paused | completed | error
deriving Repr, DecidableEq, Inhabited

inductive AgentTaskType where
  | planning | execution
deriving Repr, DecidableEq, Inhabited

inductive AgentTaskStatus where
  | pending | in_progress | completed | failed
deriving Repr, DecidableEq, Inhabited

structure AgentTask where
  id : String
  type : AgentTaskType
  status : AgentTaskStatus
  input : Jsonish
  createdAt : String
  dispatchedAt : Option String := none
  planId : Option String := none
  definitionId : Option String := none
deriving Repr, Inhabited

inductive ResultStatus where
  | success | failure
deriving Repr, DecidableEq, Inhabited

structure AgentResult where
  taskId : String
  status : ResultStatus
  output : Option Jsonish := none
  error : Option String := none
  completedAt : String
deriving Repr, Inhabited

inductive ApprovalType where
  | plan | execution_start | execution_retry
deriving Repr, DecidableEq, Inhabited

structure ApprovalRequest where
  id : String
  type : ApprovalType
  requestedAt : String
  details : Jsonish
  planId : Option String := none
  taskIds : Option (List String) := none
deriving Repr, Inhabited

structure TransitionRecord where
  timestamp : String
  intentType : String
  fromPhase : ProjectPhase
  toPhase : ProjectPhase
deriving Repr, DecidableEq, Inhabited

inductive ClarificationStatus where
  | open_ | answered | resolved
deriving Repr, DecidableEq, Inhabited

structure ClarificationRecord where
  id : String
  questions : List String
  answers : List String
  status : ClarificationStatus
  createdAt : String
  resolvedAt : Option String := none
deriving Repr, DecidableEq, Inhabited

inductive DiscussionType where
  | clarification | plan | execution | system
deriving Repr, DecidableEq, Inhabited

structure DiscussionEntry where
  id : String
  type : DiscussionType
  message : String
  timestamp : String
  metadata : Option Jsonish := none
deriving Repr, Inhabited

/-- DiscussionEntryInput: a discussion entry whose id may be absent. -/
structure DiscussionEntryInput where
  id : Option String := none
  type : DiscussionType
  message : String
  timestamp : String
  metadata : Option Jsonish := none
deriving Repr, Inhabited

structure Milestone where
  id : String
  title : String
  description : Option String := none
  targetDate : Option String := none
deriving Repr, DecidableEq, Inhabited

structure Feature where
  id : String
  title : String
  description : Option String := none
  dependencies : Option (List String) := none
  owners : Option (List String) := none
deriving Repr, DecidableEq, Inhabited

structure ExecutionTaskDef where
  id : String
  title : String
  description : Option String := none
  role : String
  dependsOn : Option (List String) := none
  payload : Option Jsonish := none
deriving Repr, Inhabited

/-- Plan content prior to snapshotting: `Omit<PlanSnapshot, "id" | "createdAt">`. -/
structure PlanContent where
  roadmap : List Milestone
  features : List Feature
  tasks : List ExecutionTaskDef
  rationale : Option String := none
deriving Repr, Inhabited

structure PlanSnapshot where
  id : String
  createdAt : String
  roadmap : List Milestone
  features : List Feature
  tasks : List ExecutionTaskDef
  rationale : Option String := none
deriving Repr, Inhabited

structure ExecutionFailure where
  taskId : String
  reason : String
deriving Repr, DecidableEq, Inhabited

structure ExecutionSummary where
  total : Nat
  completed : Nat
  failed : Nat
  inProgress : Nat
deriving Repr, DecidableEq, Inhabited

structure ExecutionState where
  results : List (String × AgentResult)
  summary : ExecutionSummary
  failures : List ExecutionFailure
deriving Repr, Inhabited

structure OrchestratorSettings where
  requireExecutionApproval : Bool
  requireRetryApproval : Bool
deriving Repr, DecidableEq, Inhabited

/-- Partial settings as supplied in a `create_project` payload. -/
structure PartialSettings where
  requireExecutionApproval : Option Bool := none
  requireRetryApproval : Option Bool := none
deriving Repr, DecidableEq, Inhabited

structure ProjectContext where
  icp : Option String := none
  techStack : Option (List String) := none
  constraints : Option (List String) := none
  coreFeatures : Option (List String) := none
deriving Repr, DecidableEq, Inhabited

structure ProjectState where
  projectId : String
  phase : ProjectPhase
  version : Nat
  updatedAt : String
  goal : Option String := none
  context : Option ProjectContext := none
  plans : List (String × PlanSnapshot)
  currentPlanId : Option String := none
  pendingTasks : List AgentTask
  approvals : List ApprovalRequest
  clarifications : List ClarificationRecord
  discussion : List DiscussionEntry
  execution : Option ExecutionState := none
  settings : OrchestratorSettings
  history : List TransitionRecord
deriving Repr, Inhabited

structure CreateProjectPayload where
  projectId : String
  goal : String
  context : Option ProjectContext := none
  settings : Option PartialSettings := none
deriving Repr, DecidableEq, Inhabited

structure RequestClarificationsPayload where
  questions : List String
  discussion : Option (List DiscussionEntryInput) := none
deriving Repr, Inhabited

structure AnswerClarificationsPayload where
  clarificationId : String
  answers : List String
deriving Repr, DecidableEq, Inhabited

structure ApprovePlanPayload where
  approvalId : String
  planId : String
deriving Repr, DecidableEq, Inhabited

/-- Intents accepted by the state machine.  Optional payload fields whose
absence is indistinguishable from an absent payload in the source
(`payload?.field`) are collapsed to a single `Option`. -/
inductive Intent where
  | create_project (payload : CreateProjectPayload)
  | add_feature (description : String)
  | request_clarifications (payload : RequestClarificationsPayload)
  | answer_clarifications (payload : AnswerClarificationsPayload)
  | finalize_scope (note : Option String)
  | approve_plan (payload : ApprovePlanPayload)
  | approve_execution (approvalId : String)
  | replan (reason : Option String)
  | run_tasks (taskIds : Option (List String))
  | retry_tasks (taskIds : Option (List String))
  | pause_execution (reason : Option String)
  | agent_result (result : AgentResult)
deriving Repr, Inhabited

/-- Intent["type"] discriminator string. -/
def Intent.typeName : Intent → String
  | .create_project _ => "create_project"
  | .add_feature _ => "add_feature"
  | .request_clarifications _ => "request_clarifications"
  | .answer_clarifications _ => "answer_clarifications"
  | .finalize_scope _ => "finalize_scope"
  | .approve_plan _ => "approve_plan"
  | .approve_execution _ => "approve_execution"
  | .replan _ => "replan"
  | .run_tasks _ => "run_tasks"
  | .retry_tasks _ => "retry_tasks"
  | .pause_execution _ => "pause_execution"
  | .agent_result _ => "agent_result"

inductive SideEffect where
  | dispatch_agent_task (task : AgentTask)
  | request_approval (approval : ApprovalRequest)
deriving Repr, Inhabited

structure StateTransitionResult where
  newState : ProjectState
  sideEffects : List SideEffect
deriving Repr, Inhabited

/-- Environment of external library functions used by the state machine.
`uuid n` is the n-th value of the `randomUUID()` stream drawn during a
single transition; the `digest*` functions stand for the first 12 hex
characters of the SHA-256 of the stable JSON serialization of the
respective content (node `crypto`, external to the repository).  Each is
an arbitrary deterministic function of exactly the data the source
hashes. -/
structure Env where
  uuid : Nat → String
  digestClarification : List String → String → String
  digestPlan : PlanContent → String
  digestTaskDef : ExecutionTaskDef → String
  digestMilestoneRaw : String → Jsonish → String
  digestFeatureRaw : String → Jsonish → String
  digestTaskRaw : String → Jsonish → String
  digestDiscussion : DiscussionEntryInput → String
  digestDiscussionAt : DiscussionEntryInput → String → String
  digestDiscussionMsg : String → String → String
  digestTypeMsgTs : DiscussionType → String → String → String
  digestApproval : ApprovalType → Option String → List String → String → String

/-- Default settings from `stateMachine.ts`. -/
def DEFAULT_SETTINGS : OrchestratorSettings :=
  { requireExecutionApproval := false, requireRetryApproval := true }

/-! ## Encoding helpers for dynamic task inputs -/

/-- Object-typedness in the JavaScript sense: `typeof v === "object"`
holds for plain objects, arrays and `null`. -/
def Jsonish.isObjectType : Jsonish → Bool
  | .null => true
  | .arr _ => true
  | .obj _ => true
  | _ => false

/-- Truthiness of an optional string (`undefined` or the empty string are
falsy). -/
def optStrTruthy : Option String → Bool
  | none => false
  | some s => s != ""

/-- String field extraction: `typeof record.k === "string" ? record.k :
undefined`. -/
def getStr? (j : Jsonish) (k : String) : Option String :=
  match j.get k with
  | some (.str s) => some s
  | _ => none

/-- String-array field extraction: `Array.isArray(record.k) ?
record.k.filter(isString) : undefined`. -/
def getStrArr? (j : Jsonish) (k : String) : Option (List String) :=
  match j.get k with
  | some (.arr xs) =>
    some (xs.filterMap (fun x => match x with | .str s => some s | _ => none))
  | _ => none

def encodeOptStr : Option String → Jsonish
  | none => .null
  | some s => .str s

def encodeStrList (xs : List String) : Jsonish := .arr (xs.map .str)

def encodeOptStrList : Option (List String) → Jsonish
  | none => .null
  | some xs => encodeStrList xs

def ClarificationStatus.name : ClarificationStatus → String
  | .open_ => "open"
  | .answered => "answered"
  | .resolved => "resolved"

/-- JSON image of a clarification record, used only inside the opaque
`input` blob of a planning task. -/
def ClarificationRecord.toJson (c : ClarificationRecord) : Jsonish :=
  .obj [("id", .str c.id), ("questions", encodeStrList c.questions),
        ("answers", encodeStrList c.answers), ("status", .str c.status.name),
        ("createdAt", .str c.createdAt), ("resolvedAt", encodeOptStr c.resolvedAt)]

/-- JSON image of an execution task definition, used only inside the
opaque `input` blob of an execution task. -/
def ExecutionTaskDef.toJson (t : ExecutionTaskDef) : Jsonish :=
  .obj [("id", .str t.id), ("title", .str t.title),
        ("description", encodeOptStr t.description), ("role", .str t.role),
        ("dependsOn", encodeOptStrList t.dependsOn),
        ("payload", match t.payload with | some p => p | none => .null)]

/-- Planning stage discriminator (`src/logic/types.ts`). -/
inductive PlanningStage where
  | clarification | final
deriving Repr, DecidableEq, Inhabited

def PlanningStage.name : PlanningStage → String
  | .clarification => "clarification"
  | .final => "final"

/-- View of an existing discussion entry as an input (its id present),
for call sites that feed normalized entries back into
`appendDiscussion`. -/
def DiscussionEntry.toInput (e : DiscussionEntry) : DiscussionEntryInput :=
  { id := some e.id, type := e.type, message := e.message,
    timestamp := e.timestamp, metadata := e.metadata }

def DiscussionEntryInput.toEntry (e : DiscussionEntryInput) (id : String) :
    DiscussionEntry :=
  { id := id, type := e.type, message := e.message,
    timestamp := e.timestamp, metadata := e.metadata }

/-! ## State machine (`src/orchestrator/stateMachine.ts`) -/

/-- Merge of payload settings over defaults:
`\x7b ...DEFAULT_SETTINGS, ...(settings ?? \x7b\x7d) \x7d`. -/
def mergeSettings (settings : Option PartialSettings) : OrchestratorSettings :=
  { requireExecutionApproval :=
      ((settings.bind (·.requireExecutionApproval)).getD
        DEFAULT_SETTINGS.requireExecutionApproval)
    requireRetryApproval :=
      ((settings.bind (·.requireRetryApproval)).getD
        DEFAULT_SETTINGS.requireRetryApproval) }

/-- createProjectState (stateMachine.ts lines 132-152).  Note the payload
context is not among the parameters: the source function only receives
projectId, goal, now and settings, so the fresh state has no context. -/
def createProjectState (projectId goal now : String)
    (settings : Option PartialSettings) : ProjectState :=
  { projectId := projectId
    phase := .idle
    version := 0
    updatedAt := now
    goal := some goal
    context := none
    plans := []
    currentPlanId := none
    pendingTasks := []
    approvals := []
    clarifications := []
    discussion := []
    execution := none
    settings := mergeSettings settings
    history := [] }

/-- applyTransition (lines 154-170): installs overrides, then stamps
phase, version (old version + 1), updatedAt and the appended
TransitionRecord; the stamped fields win over anything in the
overrides, matching the spread order in the source. -/
def applyTransition (state : ProjectState) (intent : Intent)
    (fromPhase toPhase : ProjectPhase) (now : String)
    (overrides : ProjectState → ProjectState) : ProjectState :=
  let s := overrides state
  { s with
    phase := toPhase
    version := state.version + 1
    updatedAt := now
    history := state.history ++
      [{ timestamp := now, intentType := intent.typeName,
         fromPhase := fromPhase, toPhase := toPhase }] }

/-- buildPlanningTask (lines 172-194); the id draws the transition-local
`randomUUID()`. -/
def buildPlanningTask (env : Env) (goal : Option String)
    (clarifications : List ClarificationRecord) (stage : PlanningStage)
    (note : Option String) (now : String) : AgentTask :=
  { id := "plan-" ++ env.uuid 0
    type := .planning
    status := .pending
    input := .obj [("goal", encodeOptStr goal),
                   ("clarifications", .arr (clarifications.map (·.toJson))),
                   ("stage", .str stage.name),
                   ("note", encodeOptStr note)]
    createdAt := now }

/-- Result pair of markTasksForDispatch: the full updated list and the
tasks that were newly marked. -/
structure MarkResult where
  updatedTasks : List AgentTask
  tasks : List AgentTask
deriving Repr, Inhabited

/-- markTasksForDispatch (lines 813-832): a task is stamped with
`dispatchedAt = now` iff it is listed, still pending, and has no truthy
`dispatchedAt`; the second component collects exactly the stamped tasks
in list order. -/
def markTasksForDispatch (tasks : List AgentTask) (taskIds : List String)
    (now : String) : MarkResult :=
  let newlyDispatched := fun (task : AgentTask) =>
    taskIds.contains task.id && task.status == .pending &&
      !(optStrTruthy task.dispatchedAt)
  { updatedTasks := tasks.map (fun task =>
      if newlyDispatched task then { task with dispatchedAt := some now }
      else task)
    tasks := (tasks.filter newlyDispatched).map
      (fun task => { task with dispatchedAt := some now }) }

/-- createClarificationRecord (lines 622-630). -/
def createClarificationRecord (env : Env) (questions : List String)
    (now : String) : ClarificationRecord :=
  { id := "clarification-" ++ env.digestClarification questions now
    questions := questions
    answers := []
    status := .open_
    createdAt := now }

/-- updateClarificationAnswers (lines 632-652). -/
def updateClarificationAnswers (clarifications : List ClarificationRecord)
    (clarificationId : String) (answers : List String) (now : String) :
    List ClarificationRecord × Bool :=
  let found := clarifications.any (fun r => r.id == clarificationId)
  let updated := clarifications.map (fun r =>
    if r.id == clarificationId then
      { r with answers := answers, status := .answered, resolvedAt := some now }
    else r)
  (updated, found)

/-- appendDiscussion (lines 943-961): ids are filled from the content
digest when absent; the fallback entry, when given, is hashed together
with `now` and always appended after the incoming entries. -/
def appendDiscussion (env : Env) (discussion : List DiscussionEntry)
    (now : String) (entries : List DiscussionEntryInput)
    (fallback : Option DiscussionEntryInput) : List DiscussionEntry :=
  let normalized := entries.map (fun e =>
    e.toEntry (e.id.getD ("discussion-" ++ env.digestDiscussion e)))
  let fallbackEntry := fallback.map (fun f =>
    f.toEntry (f.id.getD ("discussion-" ++ env.digestDiscussionAt f now)))
  discussion ++ normalized ++
    (match fallbackEntry with | some e => [e] | none => [])

/-- normalizeDiscussion (lines 963-1003). -/
def normalizeDiscussion (env : Env) (input : Option Jsonish) (now : String) :
    Option (List DiscussionEntry) :=
  if !(jsTruthy input) then none
  else match input with
  | some (.arr entries) =>
    some (entries.filterMap (fun entry =>
      match entry with
      | .str s =>
        some { id := "discussion-" ++ env.digestDiscussionMsg s now
               type := .system, message := s, timestamp := now }
      | .obj fields =>
        let record := Jsonish.obj fields
        let type : DiscussionType :=
          match record.get "type" with
          | some (.str "clarification") => .clarification
          | some (.str "plan") => .plan
          | some (.str "execution") => .execution
          | _ => .system
        let message := (getStr? record "message").getD "Discussion entry"
        let timestamp := (getStr? record "timestamp").getD now
        some { id := (getStr? record "id").getD
                 ("discussion-" ++ env.digestTypeMsgTs type message timestamp)
               type := type, message := message, timestamp := timestamp
               metadata := match record.get "metadata" with
                 | some m => if m.isObjectType then some m else none
                 | none => none }
      | _ => none))
  | _ => none

/-- Intermediate result of the state-machine-side parsePlanningOutput
(lines 654-674). -/
structure SMPlanningOutput where
  questions : List String
  plan : Option PlanContent := none
  discussion : Option (List DiscussionEntry) := none
deriving Repr, Inhabited

/-- normalizeMilestones (lines 706-723). -/
def normalizeMilestones (env : Env) (input : Option Jsonish) : List Milestone :=
  match input with
  | some (.arr entries) =>
    (entries.filter (fun e => e.truthy && e.isObjectType)).map (fun record =>
      let title := (getStr? record "title").getD "Untitled milestone"
      { id := (getStr? record "id").getD
          ("mile-" ++ env.digestMilestoneRaw title record)
        title := title
        description := getStr? record "description"
        targetDate := getStr? record "targetDate" })
  | _ => []

/-- normalizeFeatures (lines 725-750). -/
def normalizeFeatures (env : Env) (input : Option Jsonish) : List Feature :=
  match input with
  | some (.arr entries) =>
    (entries.filter (fun e => e.truthy && e.isObjectType)).map (fun record =>
      let title := (getStr? record "title").getD "Untitled feature"
      { id := (getStr? record "id").getD
          ("feat-" ++ env.digestFeatureRaw title record)
        title := title
        description := getStr? record "description"
        dependencies := getStrArr? record "dependencies"
        owners := getStrArr? record "owners" })
  | _ => []

/-- normalizeExecutionTasks (lines 752-776). -/
def normalizeExecutionTasks (env : Env) (input : Option Jsonish) :
    List ExecutionTaskDef :=
  match input with
  | some (.arr entries) =>
    (entries.filter (fun e => e.truthy && e.isObjectType)).map (fun record =>
      let title := (getStr? record "title").getD "Untitled task"
      { id := (getStr? record "id").getD
          ("task-" ++ env.digestTaskRaw title record)
        title := title
        description := getStr? record "description"
        role := (getStr? record "role").getD "execution"
        dependsOn := getStrArr? record "dependsOn"
        payload := match record.get "payload" with
          | some p => if p.isObjectType && p.truthy then some p else none
          | none => none })
  | _ => []

/-- normalizePlanDraft (lines 690-704). -/
def normalizePlanDraft (env : Env) (draft : Jsonish) : PlanContent :=
  { roadmap := normalizeMilestones env (draft.get "roadmap")
    features := normalizeFeatures env (draft.get "features")
    tasks := normalizeExecutionTasks env (draft.get "tasks")
    rationale := getStr? draft "rationale" }

/-- extractPlanCandidate (lines 676-688). -/
def extractPlanCandidate (env : Env) (output : Jsonish) : Option PlanContent :=
  let planField := output.get "plan"
  if jsTruthy planField &&
      (match planField with | some p => p.isObjectType | none => false) then
    some (normalizePlanDraft env (planField.getD .null))
  else if jsTruthy (output.get "roadmap") || jsTruthy (output.get "features") ||
      jsTruthy (output.get "tasks") then
    some (normalizePlanDraft env output)
  else none

/-- State-machine-side parsePlanningOutput (lines 654-674), applied to
the already-decoded `AgentResult.output` mapping. -/
def parsePlanningOutputSM (env : Env) (output : Option Jsonish)
    (now : String) : SMPlanningOutput :=
  match output with
  | none => { questions := [] }
  | some o =>
    if !o.truthy then { questions := [] }
    else
      { questions := match o.get "questions" with
          | some (.arr qs) =>
            qs.filterMap (fun q => match q with | .str s => some s | _ => none)
          | _ => []
        discussion := normalizeDiscussion env (o.get "discussion") now
        plan := extractPlanCandidate env o }

/-- normalizePlanSnapshot (lines 778-796): the id is the prefixed digest
of the plan content only (`now` is not hashed); empty task ids are
re-filled from the task digest. -/
def normalizePlanSnapshot (env : Env) (plan : PlanContent) (now : String) :
    PlanSnapshot :=
  let planId := "plan-" ++ env.digestPlan plan
  let tasks := plan.tasks.map (fun task =>
    { task with id := if task.id != "" then task.id
                      else "task-" ++ env.digestTaskDef task })
  { id := planId
    createdAt := now
    roadmap := plan.roadmap
    features := plan.features
    tasks := tasks
    rationale := plan.rationale }

/-- buildExecutionTasks (lines 798-811); each task draws the next value
of the `randomUUID()` stream. -/
def buildExecutionTasks (env : Env) (plan : PlanSnapshot) (now : String) :
    List AgentTask :=
  plan.tasks.enum.map (fun p =>
    { id := "exec-" ++ env.uuid p.1
      type := .execution
      status := .pending
      input := .obj [("task", p.2.toJson), ("planId", .str plan.id)]
      createdAt := now
      planId := some plan.id
      definitionId := some p.2.id })

/-- buildExecutionSummary (lines 883-889). -/
def buildExecutionSummary (tasks : List AgentTask) : ExecutionSummary :=
  { total := tasks.length
    completed := (tasks.filter (fun t => t.status == .completed)).length
    failed := (tasks.filter (fun t => t.status == .failed)).length
    inProgress := (tasks.filter (fun t =>
      t.status == .pending && optStrTruthy t.dispatchedAt)).length }

/-- buildExecutionFailures (lines 891-901). -/
def buildExecutionFailures (tasks : List AgentTask)
    (results : List (String × AgentResult)) : List ExecutionFailure :=
  (tasks.filter (fun t => t.type == .execution && t.status == .failed)).map
    (fun t =>
      { taskId := t.id
        reason := ((recordGet results t.id).bind (·.error)).getD
          "Execution failed" })

/-- buildExecutionState (lines 834-853). -/
def buildExecutionState (tasks : List AgentTask)
    (existing : Option ExecutionState) : ExecutionState :=
  let executionTasks := tasks.filter (fun t => t.type == .execution)
  let taskIds := executionTasks.map (·.id)
  let results := (match existing with | some e => e.results | none => []).filter
    (fun p => taskIds.contains p.1)
  { results := results
    summary := buildExecutionSummary executionTasks
    failures := buildExecutionFailures executionTasks results }

/-- updateExecutionState (lines 855-867). -/
def updateExecutionState (execution : Option ExecutionState)
    (tasks : List AgentTask) (result : AgentResult) : ExecutionState :=
  let results := recordSet
    (match execution with | some e => e.results | none => [])
    result.taskId result
  { results := results
    summary := buildExecutionSummary (tasks.filter (fun t => t.type == .execution))
    failures := buildExecutionFailures tasks results }

/-- pruneExecutionResults (lines 869-881). -/
def pruneExecutionResults (execution : Option ExecutionState)
    (taskIds : List String) : Option ExecutionState :=
  match execution with
  | none => none
  | some e =>
    some { e with results := e.results.filter (fun p => !(taskIds.contains p.1)) }

/-- getFailedTaskIds (lines 903-905). -/
def getFailedTaskIds (tasks : List AgentTask) : List String :=
  (tasks.filter (fun t => t.type == .execution && t.status == .failed)).map (·.id)

/-- createPlanApproval (lines 907-920): the approval id is literally
`"approval-" ++ plan id`. -/
def createPlanApproval (plan : PlanSnapshot) (now : String) : ApprovalRequest :=
  { id := "approval-" ++ plan.id
    type := .plan
    requestedAt := now
    planId := some plan.id
    details := .obj [("planId", .str plan.id),
                     ("roadmapCount", .num plan.roadmap.length),
                     ("featureCount", .num plan.features.length),
                     ("taskCount", .num plan.tasks.length)] }

/-- createExecutionApproval (lines 922-941). -/
def createExecutionApproval (env : Env) (type : ApprovalType)
    (planId : Option String) (tasks : List AgentTask) (now : String)
    (taskIds : Option (List String)) : ApprovalRequest :=
  let resolvedTaskIds := taskIds.getD
    ((tasks.filter (fun t => t.type == .execution)).map (·.id))
  { id := "approval-" ++ env.digestApproval type planId resolvedTaskIds now
    type := type
    requestedAt := now
    planId := planId
    taskIds := some resolvedTaskIds
    details := .obj [("planId", encodeOptStr planId),
                     ("taskCount", .num
                       (tasks.filter (fun t => t.type == .execution)).length)] }

/-- hasExecutionApprovalPending (lines 1032-1034). -/
def hasExecutionApprovalPending (approvals : List ApprovalRequest) : Bool :=
  approvals.any (fun a => a.type == .execution_start || a.type == .execution_retry)

/-- System discussion note carrying a rejection or failure message, as
appended by rejectTransition and failTransition. -/
def systemNote (message now : String) : DiscussionEntryInput :=
  { type := .system, message := message, timestamp := now }

/-- rejectTransition (lines 1036-1051): keeps the phase, appends the
explanatory system note, no effects. -/
def rejectTransition (env : Env) (state : ProjectState) (intent : Intent)
    (message now : String) : StateTransitionResult :=
  let discussion := appendDiscussion env state.discussion now
    [systemNote message now] none
  { newState := applyTransition state intent state.phase state.phase now
      (fun s => { s with discussion := discussion })
    sideEffects := [] }

/-- failTransition (lines 1053-1068): moves to phase `error`, appends the
explanatory system note, no effects. -/
def failTransition (env : Env) (state : ProjectState) (intent : Intent)
    (message now : String) : StateTransitionResult :=
  let discussion := appendDiscussion env state.discussion now
    [systemNote message now] none
  { newState := applyTransition state intent state.phase .error now
      (fun s => { s with discussion := discussion })
    sideEffects := [] }

/-- Status written by an agent result: `success → completed`,
`failure → failed`. -/
def statusForResult (status : ResultStatus) : AgentTaskStatus :=
  if status == .success then .completed else .failed

/-- The task-list update performed by handleAgentResult (lines 501-505):
every entry whose id matches the result gets the mapped status. -/
def applyResultStatus (tasks : List AgentTask) (result : AgentResult) :
    List AgentTask :=
  tasks.map (fun entry =>
    if entry.id == result.taskId then
      { entry with status := statusForResult result.status }
    else entry)

/-- handleClarificationRequest (lines 196-215). -/
def handleClarificationRequest (env : Env) (state : ProjectState)
    (payload : RequestClarificationsPayload) (now : String) (intent : Intent) :
    StateTransitionResult :=
  let clarification := createClarificationRecord env payload.questions now
  let clarifications := state.clarifications ++ [clarification]
  let discussion := appendDiscussion env state.discussion now
    (payload.discussion.getD [])
    (some { type := .clarification
            message := "Clarifications requested (" ++
              toString payload.questions.length ++ ")"
            timestamp := now
            metadata := some (.obj [("clarificationId", .str clarification.id)]) })
  { newState := applyTransition state intent state.phase
      .awaiting_clarification now
      (fun s => { s with clarifications := clarifications, discussion := discussion })
    sideEffects := [] }

/-- handleClarificationAnswer (lines 217-255). -/
def handleClarificationAnswer (env : Env) (state : ProjectState)
    (payload : AnswerClarificationsPayload) (now : String) (intent : Intent) :
    StateTransitionResult :=
  let updated := updateClarificationAnswers state.clarifications
    payload.clarificationId payload.answers now
  if !updated.2 then
    failTransition env state intent "Clarification not found" now
  else
    let clarifications := updated.1
    let planningTask := buildPlanningTask env state.goal clarifications
      .clarification none now
    let discussion := appendDiscussion env state.discussion now
      [{ type := .clarification, message := "Clarifications answered"
         timestamp := now
         metadata := some (.obj [("clarificationId", .str payload.clarificationId)]) }]
      none
    let allTasks := state.pendingTasks ++ [planningTask]
    let result := markTasksForDispatch allTasks [planningTask.id] now
    { newState := applyTransition state intent state.phase .planning now
        (fun s => { s with clarifications := clarifications,
                           discussion := discussion,
                           pendingTasks := result.updatedTasks })
      sideEffects := result.tasks.map .dispatch_agent_task }

/-- handleFinalizeScope (lines 257-290). -/
def handleFinalizeScope (env : Env) (state : ProjectState)
    (note : Option String) (now : String) (intent : Intent) :
    StateTransitionResult :=
  let clarifications := state.clarifications.map (fun record =>
    if record.status == .resolved then record
    else { record with status := .resolved
                       resolvedAt := some (record.resolvedAt.getD now) })
  let planningTask := buildPlanningTask env state.goal clarifications
    .final note now
  let discussion := appendDiscussion env state.discussion now
    [{ type := .plan, message := "Scope finalized for planning", timestamp := now }]
    none
  let allTasks := state.pendingTasks ++ [planningTask]
  let result := markTasksForDispatch allTasks [planningTask.id] now
  { newState := applyTransition state intent state.phase .planning now
      (fun s => { s with clarifications := clarifications,
                         discussion := discussion,
                         pendingTasks := result.updatedTasks })
    sideEffects := result.tasks.map .dispatch_agent_task }

/-- handlePlanApproval (lines 292-340). -/
def handlePlanApproval (env : Env) (state : ProjectState)
    (payload : ApprovePlanPayload) (now : String) (intent : Intent) :
    StateTransitionResult :=
  match state.approvals.find? (fun entry => entry.id == payload.approvalId) with
  | none => failTransition env state intent "Plan approval mismatch" now
  | some approval =>
    if approval.type != .plan || approval.planId != some payload.planId then
      failTransition env state intent "Plan approval mismatch" now
    else
      match recordGet state.plans payload.planId with
      | none => failTransition env state intent "Plan not found for approval" now
      | some plan =>
        let approvalsBase := state.approvals.filter
          (fun entry => entry.id != approval.id)
        let executionTasks := buildExecutionTasks env plan now
        let pendingTasksBase := state.pendingTasks ++ executionTasks
        let note : DiscussionEntryInput :=
          { type := .plan, message := "Plan approved", timestamp := now
            metadata := some (.obj [("planId", .str plan.id)]) }
        if state.settings.requireExecutionApproval then
          let executionApproval := createExecutionApproval env
            .execution_start (some plan.id) executionTasks now none
          let approvals := approvalsBase ++ [executionApproval]
          let execution := buildExecutionState pendingTasksBase none
          let discussion := appendDiscussion env state.discussion now [note] none
          { newState := applyTransition state intent state.phase
              .awaiting_execution_approval now
              (fun s => { s with approvals := approvals,
                                 pendingTasks := pendingTasksBase,
                                 execution := some execution,
                                 discussion := discussion,
                                 currentPlanId := some plan.id })
            sideEffects := [.request_approval executionApproval] }
        else
          let marked := markTasksForDispatch pendingTasksBase
            (executionTasks.map (·.id)) now
          let pendingTasks := marked.updatedTasks
          let phase : ProjectPhase :=
            if executionTasks.length == 0 then .completed else .executing
          let execution := buildExecutionState pendingTasks none
          let discussion := appendDiscussion env state.discussion now [note] none
          { newState := applyTransition state intent state.phase phase now
              (fun s => { s with approvals := approvalsBase,
                                 pendingTasks := pendingTasks,
                                 execution := some execution,
                                 discussion := discussion,
                                 currentPlanId := some plan.id })
            sideEffects := marked.tasks.map .dispatch_agent_task }

/-- handleExecutionApproval (lines 342-374). -/
def handleExecutionApproval (env : Env) (state : ProjectState)
    (approvalId : String) (now : String) (intent : Intent) :
    StateTransitionResult :=
  match state.approvals.find? (fun entry => entry.id == approvalId) with
  | none => failTransition env state intent "Execution approval mismatch" now
  | some approval =>
    if approval.type != .execution_start && approval.type != .execution_retry then
      failTransition env state intent "Execution approval mismatch" now
    else
      let taskIds := approval.taskIds.getD (state.pendingTasks.map (·.id))
      let result := markTasksForDispatch state.pendingTasks taskIds now
      let approvals := state.approvals.filter (fun entry => entry.id != approvalId)
      let execution := buildExecutionState result.updatedTasks state.execution
      let discussion := appendDiscussion env state.discussion now
        [{ type := .execution
           message := if approval.type == .execution_retry then "Retry approved"
                      else "Execution approved"
           timestamp := now
           metadata := some (.obj [("approvalId", .str approvalId)]) }]
        none
      { newState := applyTransition state intent state.phase .executing now
          (fun s => { s with approvals := approvals,
                             pendingTasks := result.updatedTasks,
                             execution := some execution,
                             discussion := discussion })
        sideEffects := result.tasks.map .dispatch_agent_task }

/-- Target ids of a run_tasks intent (line 385): the listed ids, or the
ids of every still-pending task (of either type) when none are listed. -/
def runTaskTargets (state : ProjectState) (taskIds : List String) : List String :=
  if taskIds.length > 0 then taskIds
  else (state.pendingTasks.filter (fun t => t.status == .pending)).map (·.id)

/-- handleRunTasks (lines 376-396). -/
def handleRunTasks (env : Env) (state : ProjectState) (taskIds : List String)
    (now : String) (intent : Intent) : StateTransitionResult :=
  if hasExecutionApprovalPending state.approvals then
    rejectTransition env state intent "Execution approval required" now
  else
    let targetIds := runTaskTargets state taskIds
    let result := markTasksForDispatch state.pendingTasks targetIds now
    let execution := buildExecutionState result.updatedTasks state.execution
    { newState := applyTransition state intent state.phase state.phase now
        (fun s => { s with pendingTasks := result.updatedTasks,
                           execution := some execution })
      sideEffects := result.tasks.map .dispatch_agent_task }

/-- Failed-task selection of retry_tasks (lines 404-413): execution tasks
filtered by the listed ids (all execution tasks when none are listed),
kept only when their status is `failed`. -/
def failedRetryIds (state : ProjectState) (taskIds : List String) : List String :=
  let executionTaskIds := (state.pendingTasks.filter (fun task =>
    task.type == .execution &&
      (taskIds.length == 0 || taskIds.contains task.id))).map (·.id)
  if taskIds.length > 0 then
    executionTaskIds.filter (fun id =>
      match state.pendingTasks.find? (fun t => t.id == id) with
      | some task => task.status == .failed
      | none => false)
  else getFailedTaskIds state.pendingTasks

/-- finalizeRetryTransition (lines 465-488). -/
def finalizeRetryTransition (env : Env) (state : ProjectState) (intent : Intent)
    (pendingTasks : List AgentTask) (approvals : List ApprovalRequest)
    (executionSeed : Option ExecutionState) (now : String)
    (phase : ProjectPhase) (sideEffects : List SideEffect) :
    StateTransitionResult :=
  let execution := buildExecutionState pendingTasks executionSeed
  let discussion := appendDiscussion env state.discussion now
    [{ type := .execution, message := "Retry dispatched", timestamp := now }]
    none
  { newState := applyTransition state intent state.phase phase now
      (fun s => { s with approvals := approvals,
                         pendingTasks := pendingTasks,
                         execution := some execution,
                         discussion := discussion })
    sideEffects := sideEffects }

/-- handleRetryTasks (lines 398-463): when no failed execution tasks are
selected the state is returned unchanged, with no transition applied. -/
def handleRetryTasks (env : Env) (state : ProjectState) (taskIds : List String)
    (now : String) (intent : Intent) : StateTransitionResult :=
  let failedTaskIds := failedRetryIds state taskIds
  if failedTaskIds.length == 0 then
    { newState := state, sideEffects := [] }
  else
    let pendingTasks := state.pendingTasks.map (fun task =>
      if failedTaskIds.contains task.id then { task with status := .pending }
      else task)
    let executionSeed := pruneExecutionResults state.execution failedTaskIds
    if state.settings.requireRetryApproval then
      let approval := createExecutionApproval env .execution_retry
        state.currentPlanId pendingTasks now (some failedTaskIds)
      let approvals := state.approvals ++ [approval]
      let execution := buildExecutionState pendingTasks executionSeed
      let discussion := appendDiscussion env state.discussion now
        [{ type := .execution, message := "Retry requested", timestamp := now
           metadata := some (.obj [("taskIds", encodeStrList failedTaskIds)]) }]
        none
      { newState := applyTransition state intent state.phase
          .awaiting_execution_approval now
          (fun s => { s with approvals := approvals,
                             pendingTasks := pendingTasks,
                             execution := some execution,
                             discussion := discussion })
        sideEffects := [.request_approval approval] }
    else
      let result := markTasksForDispatch pendingTasks failedTaskIds now
      finalizeRetryTransition env state intent result.updatedTasks
        state.approvals executionSeed now .executing
        (result.tasks.map .dispatch_agent_task)

/-- handlePlanningResult (lines 521-587). -/
def handlePlanningResult (env : Env) (state : ProjectState)
    (result : AgentResult) (updatedTasks : List AgentTask) (now : String)
    (intent : Intent) : StateTransitionResult :=
  if result.status != .success then
    let discussion := appendDiscussion env state.discussion now
      [{ type := .system, message := result.error.getD "Planning failed"
         timestamp := now }] none
    { newState := applyTransition state intent state.phase .error now
        (fun s => { s with pendingTasks := updatedTasks, discussion := discussion })
      sideEffects := [] }
  else
    let planningOutput := parsePlanningOutputSM env result.output now
    let discussion := appendDiscussion env state.discussion now
      ((planningOutput.discussion.getD []).map (·.toInput)) none
    if planningOutput.questions.length > 0 then
      let clarification := createClarificationRecord env
        planningOutput.questions now
      let clarifications := state.clarifications ++ [clarification]
      let updatedDiscussion := appendDiscussion env discussion now
        [{ type := .clarification
           message := "Clarifications requested (" ++
             toString planningOutput.questions.length ++ ")"
           timestamp := now
           metadata := some (.obj [("clarificationId", .str clarification.id)]) }]
        none
      { newState := applyTransition state intent state.phase
          .awaiting_clarification now
          (fun s => { s with pendingTasks := updatedTasks,
                             clarifications := clarifications,
                             discussion := updatedDiscussion })
        sideEffects := [] }
    else
      match planningOutput.plan with
      | none =>
        { newState := applyTransition state intent state.phase .planning now
            (fun s => { s with pendingTasks := updatedTasks,
                               discussion := discussion })
          sideEffects := [] }
      | some plan =>
        let planSnapshot := normalizePlanSnapshot env plan now
        let plans := recordSet state.plans planSnapshot.id planSnapshot
        let approval := createPlanApproval planSnapshot now
        let approvals := state.approvals ++ [approval]
        let updatedDiscussion := appendDiscussion env discussion now
          [{ type := .plan, message := "Plan candidate ready for approval"
             timestamp := now
             metadata := some (.obj [("planId", .str planSnapshot.id)]) }]
          none
        { newState := applyTransition state intent state.phase
            .awaiting_approval now
            (fun s => { s with pendingTasks := updatedTasks,
                               plans := plans,
                               currentPlanId := some planSnapshot.id,
                               approvals := approvals,
                               discussion := updatedDiscussion })
          sideEffects := [.request_approval approval] }

/-- handleExecutionResult (lines 589-620). -/
def handleExecutionResult (env : Env) (state : ProjectState)
    (result : AgentResult) (updatedTasks : List AgentTask) (now : String)
    (intent : Intent) : StateTransitionResult :=
  let execution := updateExecutionState state.execution updatedTasks result
  let summary := execution.summary
  let failures := execution.failures
  let pendingCount := summary.total - summary.completed - summary.failed
  let nextPhase : ProjectPhase :=
    if summary.total > 0 && summary.completed == summary.total &&
        failures.length == 0 then
      .completed
    else if failures.length > 0 && pendingCount == 0 then
      .error
    else state.phase
  let discussion := appendDiscussion env state.discussion now
    [{ type := .execution
       message := if result.status == .success then "Execution task completed"
                  else "Execution task failed"
       timestamp := now
       metadata := some (.obj [("taskId", .str result.taskId)]) }]
    none
  { newState := applyTransition state intent state.phase nextPhase now
      (fun s => { s with pendingTasks := updatedTasks,
                         execution := some execution,
                         discussion := discussion })
    sideEffects := [] }

/-- handleAgentResult (lines 490-519). -/
def handleAgentResult (env : Env) (state : ProjectState)
    (result : AgentResult) (now : String) (intent : Intent) :
    StateTransitionResult :=
  match state.pendingTasks.find? (fun entry => entry.id == result.taskId) with
  | none => failTransition env state intent "Task not found for agent result" now
  | some task =>
    let updatedTasks := applyResultStatus state.pendingTasks result
    if task.type == .planning then
      handlePlanningResult env state result updatedTasks now intent
    else if task.type == .execution then
      handleExecutionResult env state result updatedTasks now intent
    else
      { newState := applyTransition state intent state.phase state.phase now
          (fun s => { s with pendingTasks := updatedTasks })
        sideEffects := [] }

/-- transitionState (lines 31-130): the pure
`(state, intent, now) → (state2, effects)` function. -/
def transitionState (env : Env) (state : ProjectState) (intent : Intent)
    (now : String) : StateTransitionResult :=
  match intent with
  | .create_project payload =>
    let baseState := createProjectState payload.projectId payload.goal now
      payload.settings
    let planningTask := buildPlanningTask env (some payload.goal)
      baseState.clarifications .clarification none now
    let result := markTasksForDispatch [planningTask] [planningTask.id] now
    { newState := applyTransition baseState intent .idle .planning now
        (fun s => { s with pendingTasks := result.updatedTasks })
      sideEffects := result.tasks.map .dispatch_agent_task }
  | .add_feature description =>
    let planningTask := buildPlanningTask env state.goal state.clarifications
      .clarification (some description) now
    let allTasks := state.pendingTasks ++ [planningTask]
    let result := markTasksForDispatch allTasks [planningTask.id] now
    { newState := applyTransition state intent state.phase .planning now
        (fun s => { s with pendingTasks := result.updatedTasks })
      sideEffects := result.tasks.map .dispatch_agent_task }
  | .request_clarifications payload =>
    handleClarificationRequest env state payload now intent
  | .answer_clarifications payload =>
    handleClarificationAnswer env state payload now intent
  | .finalize_scope note =>
    handleFinalizeScope env state note now intent
  | .approve_plan payload =>
    handlePlanApproval env state payload now intent
  | .approve_execution approvalId =>
    handleExecutionApproval env state approvalId now intent
  | .replan reason =>
    let planningTask := buildPlanningTask env state.goal state.clarifications
      .clarification (some (reason.getD "replan")) now
    let allTasks := state.pendingTasks ++ [planningTask]
    let result := markTasksForDispatch allTasks [planningTask.id] now
    { newState := applyTransition state intent state.phase .planning now
        (fun s => { s with pendingTasks := result.updatedTasks })
      sideEffects := result.tasks.map .dispatch_agent_task }
  | .run_tasks taskIds =>
    handleRunTasks env state (taskIds.getD []) now intent
  | .retry_tasks taskIds =>
    handleRetryTasks env state (taskIds.getD []) now intent
  | .pause_execution reason =>
    let discussion := appendDiscussion env state.discussion now
      [{ type := .system, message := reason.getD "Execution paused"
         timestamp := now }] none
    { newState := applyTransition state intent state.phase .paused now
        (fun s => { s with discussion := discussion })
      sideEffects := [] }
  | .agent_result result =>
    handleAgentResult env state result now intent

/-! ## Dispatcher and orchestrator facade
(`src/orchestrator/dispatcher.ts`, orchestrator facade source file) -/

/-- Observable events of one `handleIntent` call: the write of the new
state to the store, and each side effect invoked on the external
collaborators. -/
inductive FacadeEvent where
  | saveState (state : ProjectState)
  | effectRun (effect : SideEffect)
deriving Repr, Inhabited

/-- IntentDispatcher.executeSideEffects (dispatcher.ts lines 38-55):
effects are handed to the collaborators one by one in list order. -/
def executeSideEffects (sideEffects : List SideEffect) : List FacadeEvent :=
  sideEffects.map .effectRun

/-- Modelled from the spec: `IntentDispatcher.dispatch`, the method the
facade calls, is absent from `dispatcher.ts` (which only defines
`computeTransition` and `executeSideEffects`).  Per the spec the
dispatcher computes the transition via the state machine and hands the
effect list to the collaborators in order, so `dispatch` is modelled as
that composition; its event trace is the effect executions. -/
def dispatcherDispatch (env : Env) (state : ProjectState) (intent : Intent)
    (now : String) : StateTransitionResult × List FacadeEvent :=
  let result := transitionState env state intent now
  (result, executeSideEffects result.sideEffects)

/-- Orchestrator.bootstrapState (facade lines 37-44): only a
`create_project` intent may bootstrap; anything else throws, modelled as
`none`. -/
def bootstrapState (intent : Intent) (now : String) : Option ProjectState :=
  match intent with
  | .create_project payload =>
    some (createProjectState payload.projectId payload.goal now none)
  | _ => none

/-- Orchestrator.handleIntent (facade lines 29-35), as the event trace it
produces: the dispatcher call (which runs the side effects) happens
first, then the new state is saved to the store.  `none` models the
missing-state throw. -/
def handleIntent (env : Env) (loaded : Option ProjectState) (intent : Intent)
    (now : String) : Option (StateTransitionResult × List FacadeEvent) :=
  match (match loaded with | some s => some s | none => bootstrapState intent now) with
  | none => none
  | some currentState =>
    let dispatched := dispatcherDispatch env currentState intent now
    some (dispatched.1, dispatched.2 ++ [.saveState dispatched.1.newState])

/-- Holds when the state write precedes every side-effect invocation in
the trace: the trace must not begin with an effect. -/
def savedBeforeAllEffects : List FacadeEvent → Bool
  | [] => true
  | .saveState _ :: _ => true
  | .effectRun _ :: _ => false

/-- Whitespace class of the regex `\s` and of `String.prototype.trim`,
ASCII part. -/
def isJsSpace (c : Char) : Bool :=
  c.isWhitespace || c == Char.ofNat 11 || c == Char.ofNat 12

/-- Structural ASCII model of `String.prototype.trim`. -/
def jsTrim (s : String) : String :=
  String.mk (((s.data.dropWhile isJsSpace).reverse.dropWhile isJsSpace).reverse)

/-! ## Readiness and decision logic (`src/logic/decision.ts`) -/

structure PlanningInput where
  goal : Option String := none
  context : Option ProjectContext := none
  clarifications : List ClarificationRecord
  stage : PlanningStage
  note : Option String := none
deriving Repr, DecidableEq, Inhabited

structure AnsweredClarification where
  question : String
  answer : String
deriving Repr, DecidableEq, Inhabited

/-- hasNonEmptyString (decision.ts lines 19-21). -/
def hasNonEmptyString (str : Option String) : Bool :=
  match str with
  | some s => jsTrim s != ""
  | none => false

/-- hasNonEmptyArray (decision.ts lines 15-17). -/
def hasNonEmptyArray (arr : Option (List String)) : Bool :=
  match arr with
  | some l => l.length > 0
  | none => false

structure ContextCoverage where
  icp : Bool
  techStack : Bool
  constraints : Bool
  coreFeatures : Bool
deriving Repr, DecidableEq, Inhabited

/-- checkContextCoverage (decision.ts lines 23-35). -/
def checkContextCoverage (context : Option ProjectContext) : ContextCoverage :=
  { icp := hasNonEmptyString (context.bind (·.icp))
    techStack := hasNonEmptyArray (context.bind (·.techStack))
    constraints := hasNonEmptyArray (context.bind (·.constraints))
    coreFeatures := hasNonEmptyArray (context.bind (·.coreFeatures)) }

/-- extractAnsweredClarifications (decision.ts lines 37-55): pairs
questions with answers by index (an index past the answers list yields
no pair) and keeps a pair only when both strings are truthy. -/
def extractAnsweredClarifications (clarifications : List ClarificationRecord) :
    List AnsweredClarification :=
  clarifications.flatMap (fun record =>
    if record.status == .answered || record.status == .resolved then
      (record.questions.zip record.answers).filterMap (fun p =>
        if p.1 != "" && p.2 != "" then
          some { question := p.1, answer := p.2 }
        else none)
    else [])

/-- Structural ASCII model of `String.prototype.toLowerCase`. -/
def jsToLower (s : String) : String := String.mk (s.data.map Char.toLower)

/-- Substring containment on character lists (`String.prototype.includes`). -/
def listContainsSub : List Char → List Char → Bool
  | haystack, needle =>
    match haystack with
    | [] => needle.isEmpty
    | _ :: t => needle.isPrefixOf haystack || listContainsSub t needle

/-- `haystack.includes(needle)`. -/
def strContains (haystack needle : String) : Bool :=
  listContainsSub haystack.data needle.data

def icpKeywords : List String :=
  ["icp", "customer", "user", "audience", "target"]

def techStackKeywords : List String :=
  ["tech", "stack", "technology", "framework", "language"]

def constraintsKeywords : List String :=
  ["constraint", "limit", "budget", "timeline", "deadline"]

def coreFeaturesKeywords : List String :=
  ["feature", "functionality", "requirement", "must-have", "core"]

/-- hasAnswerForTopic (decision.ts lines 95-112). -/
def hasAnswerForTopic (clarifications : List AnsweredClarification)
    (keywords : List String) : Bool :=
  let lowerKeywords := keywords.map jsToLower
  clarifications.any (fun c =>
    let lowerQuestion := jsToLower c.question
    let lowerAnswer := jsToLower c.answer
    lowerKeywords.any (fun keyword =>
      (strContains lowerQuestion keyword || strContains lowerAnswer keyword) &&
        jsTrim c.answer != ""))

structure ReadinessResult where
  ready : Bool
  missingFields : List String
  goalCovered : Bool
  icpCovered : Bool
  techStackCovered : Bool
  constraintsCovered : Bool
  coreFeaturesCovered : Bool
deriving Repr, DecidableEq, Inhabited

/-- checkReadiness (decision.ts lines 57-93). -/
def checkReadiness (input : PlanningInput) : ReadinessResult :=
  let goalPresent := hasNonEmptyString input.goal
  let contextCoverage := checkContextCoverage input.context
  let answeredClarifications := extractAnsweredClarifications input.clarifications
  let icpPresent := contextCoverage.icp ||
    hasAnswerForTopic answeredClarifications icpKeywords
  let techStackPresent := contextCoverage.techStack ||
    hasAnswerForTopic answeredClarifications techStackKeywords
  let constraintsPresent := contextCoverage.constraints ||
    hasAnswerForTopic answeredClarifications constraintsKeywords
  let coreFeaturesPresent := contextCoverage.coreFeatures ||
    hasAnswerForTopic answeredClarifications coreFeaturesKeywords
  let missingFields :=
    (if goalPresent then [] else ["goal"]) ++
    (if icpPresent then [] else ["icp"]) ++
    (if techStackPresent then [] else ["techStack"]) ++
    (if constraintsPresent then [] else ["constraints"]) ++
    (if coreFeaturesPresent then [] else ["coreFeatures"])
  { ready := missingFields.length == 0
    missingFields := missingFields
    goalCovered := goalPresent
    icpCovered := icpPresent
    techStackCovered := techStackPresent
    constraintsCovered := constraintsPresent
    coreFeaturesCovered := coreFeaturesPresent }

/-- isReadyToPlan (decision.ts lines 114-121). -/
def isReadyToPlan (input : PlanningInput) : Bool :=
  if input.stage == .final then true
  else (checkReadiness input).ready

/-! ## Planner output schema and parse (`src/logic/schemas.ts`,
`src/logic/planner.ts`) -/

def isStrJson : Jsonish → Bool
  | .str _ => true
  | _ => false

/-- Optional string field in the zod sense: absent, or present with a
string value. -/
def zOptionalStr (j : Jsonish) (k : String) : Bool :=
  match j.get k with
  | none => true
  | some (.str _) => true
  | some _ => false

/-- Optional array-of-strings field in the zod sense. -/
def zOptionalStrArr (j : Jsonish) (k : String) : Bool :=
  match j.get k with
  | none => true
  | some (.arr xs) => xs.all isStrJson
  | some _ => false

/-- MilestoneDraftSchema (schemas.ts lines 3-8). -/
def milestoneDraftValid (j : Jsonish) : Bool :=
  match j with
  | .obj _ =>
    (match j.get "title" with
     | some (.str t) => t.length ≥ 1
     | _ => false) &&
    zOptionalStr j "id" && zOptionalStr j "description" &&
    zOptionalStr j "targetDate"
  | _ => false

/-- FeatureDraftSchema (schemas.ts lines 10-16). -/
def featureDraftValid (j : Jsonish) : Bool :=
  match j with
  | .obj _ =>
    (match j.get "title" with
     | some (.str t) => t.length ≥ 1
     | _ => false) &&
    zOptionalStr j "id" && zOptionalStr j "description" &&
    zOptionalStrArr j "dependencies" && zOptionalStrArr j "owners"
  | _ => false

/-- TaskDraftSchema (schemas.ts lines 29-36); the role union accepts any
string, the payload must be a plain object when present. -/
def taskDraftValid (j : Jsonish) : Bool :=
  match j with
  | .obj _ =>
    (match j.get "title" with
     | some (.str t) => t.length ≥ 1
     | _ => false) &&
    (match j.get "role" with
     | some (.str _) => true
     | _ => false) &&
    zOptionalStr j "id" && zOptionalStr j "description" &&
    zOptionalStrArr j "dependsOn" &&
    (match j.get "payload" with
     | none => true
     | some (.obj _) => true
     | some _ => false)
  | _ => false

/-- PlanDraftSchema (schemas.ts lines 38-43): at least one milestone,
feature and task, each valid; rationale optional string. -/
def planDraftValid (j : Jsonish) : Bool :=
  match j with
  | .obj _ =>
    (match j.get "roadmap" with
     | some (.arr xs) => xs.length ≥ 1 && xs.all milestoneDraftValid
     | _ => false) &&
    (match j.get "features" with
     | some (.arr xs) => xs.length ≥ 1 && xs.all featureDraftValid
     | _ => false) &&
    (match j.get "tasks" with
     | some (.arr xs) => xs.length ≥ 1 && xs.all taskDraftValid
     | _ => false) &&
    zOptionalStr j "rationale"
  | _ => false

/-- RawPlanningOutputSchema (schemas.ts lines 62-74): an object with an
optional questions field (array of at most one string) and an optional
plan field (valid plan draft), refined so that exactly one of
"questions non-empty" and "plan present" holds. -/
def rawPlanningOutputValid (j : Jsonish) : Bool :=
  match j with
  | .obj _ =>
    (match j.get "questions" with
     | none => true
     | some (.arr qs) => qs.length ≤ 1 && qs.all isStrJson
     | some _ => false) &&
    (match j.get "plan" with
     | none => true
     | some p => planDraftValid p) &&
    ((match j.get "questions" with
      | some (.arr qs) => qs.length > 0
      | _ => false) !=
     (j.get "plan").isSome)
  | _ => false

/-- Outcome of the planner-side parsePlanningOutput. -/
inductive PlanningParseResult where
  | questionsOut (question : String)
  | planOut (plan : Jsonish)
  | failure (error : String)
deriving Repr, Inhabited

/-- planner.ts parsePlanningOutput (lines 56-95) on an already-decoded
value: schema-validate, then return the single question when the
questions array has exactly one entry, else the plan when present, else
the "neither" failure; a schema failure is caught as a validation
failure (the zod message detail is not modelled). -/
def parsePlanningOutputDecoded (raw : Jsonish) : PlanningParseResult :=
  if rawPlanningOutputValid raw then
    match raw.get "questions" with
    | some (.arr [Jsonish.str q]) => .questionsOut q
    | _ =>
      match raw.get "plan" with
      | some p => .planOut p
      | none => .failure "Output contains neither valid questions nor a valid plan"
  else .failure "Validation failed"

/-- Success flag of the decoded-object parse. -/
def parsePlanningOutputSucceeds (raw : Jsonish) : Bool :=
  match parsePlanningOutputDecoded raw with
  | .failure _ => false
  | _ => true

/-! ## JSON extraction from a raw string response
(`src/logic/planner.ts` lines 24-54).  `JSON.parse` is an external
library call and is threaded in as the `parse` parameter: `some`
models a successful parse, `none` a thrown syntax error. -/

def lbraceChar : Char := Char.ofNat 123

def rbraceChar : Char := Char.ofNat 125

def backtickChar : Char := Char.ofNat 96

def startsWithLbrace (s : String) : Bool :=
  match s.data with
  | c :: _ => c == lbraceChar
  | [] => false

/-- Holds when the character list starts with a triple-backtick fence. -/
def isFenceAt : List Char → Bool
  | a :: b :: c :: _ => a == backtickChar && b == backtickChar && c == backtickChar
  | _ => false

/-- Lazy capture up to the first following fence, `none` when no closing
fence exists. -/
def takeUntilFence : List Char → Option (List Char)
  | [] => none
  | c :: rest =>
    if isFenceAt (c :: rest) then some []
    else (takeUntilFence rest).map (fun tl => c :: tl)

/-- Optional `json` tag directly after the opening fence
(`(?:json)?`). -/
def stripJsonWord (cs : List Char) : List Char :=
  match cs with
  | 'j' :: 's' :: 'o' :: 'n' :: rest => rest
  | _ => cs

/-- First match of the fenced-block regex
(three backticks, optional `json`, `\s*`, lazy capture, three
backticks): scans for the first opening fence from which a closing
fence is reachable and returns the capture group. -/
def fencedCapture : List Char → Option (List Char)
  | [] => none
  | c :: rest =>
    if isFenceAt (c :: rest) then
      match takeUntilFence ((stripJsonWord ((c :: rest).drop 3)).dropWhile isJsSpace) with
      | some capture => some capture
      | none => fencedCapture rest
    else fencedCapture rest

/-- Greedy match of the whole-object regex: the slice from the first
opening brace to the last closing brace, when the latter comes after
the former. -/
def firstLastBraceSub (cs : List Char) : Option (List Char) :=
  match cs.findIdx? (fun c => c == lbraceChar),
        cs.reverse.findIdx? (fun c => c == rbraceChar) with
  | some a, some br =>
    let b := cs.length - 1 - br
    if a < b then some ((cs.drop a).take (b - a + 1)) else none
  | _, _ => none

/-- Step 1 of extraction: full parse of the trimmed text when it starts
with an opening brace. -/
def fullParseStep (parse : String → Option Jsonish) (trimmed : String) :
    Option Jsonish :=
  if startsWithLbrace trimmed then parse trimmed else none

/-- Step 2: parse of the trimmed body of the first fenced code block;
skipped when the capture group is empty (a falsy match in the
source). -/
def fenceParseStep (parse : String → Option Jsonish) (trimmed : String) :
    Option Jsonish :=
  match fencedCapture trimmed.data with
  | some capture =>
    if capture.length > 0 then parse (jsTrim (String.mk capture)) else none
  | none => none

/-- Step 3: parse of the substring from the first opening brace to the
last closing brace. -/
def braceParseStep (parse : String → Option Jsonish) (trimmed : String) :
    Option Jsonish :=
  (firstLastBraceSub trimmed.data).bind (fun sub => parse (String.mk sub))

/-- extractJsonFromResponse (planner.ts lines 24-54): the three steps are
attempted in order on the trimmed text, each failure falling through to
the next; when all fail the error is thrown. -/
def extractJsonFromResponse (parse : String → Option Jsonish) (raw : String) :
    Except String Jsonish :=
  let trimmed := jsTrim raw
  match fullParseStep parse trimmed with
  | some j => .ok j
  | none =>
    match fenceParseStep parse trimmed with
    | some j => .ok j
    | none =>
      match braceParseStep parse trimmed with
      | some j => .ok j
      | none => .error "No valid JSON object found in response"

/-! ## Concrete fixtures for witnesses and counterexamples -/

/-- Concrete environment: an arbitrary instantiation of the external
digest and uuid functions, used to evaluate the machine on concrete
inputs. -/
def env0 : Env :=
  { uuid := fun n => "uuid" ++ toString n
    digestClarification := fun _ _ => "CLAR"
    digestPlan := fun _ => "PLANH"
    digestTaskDef := fun _ => "TASKH"
    digestMilestoneRaw := fun _ _ => "MILEH"
    digestFeatureRaw := fun _ _ => "FEATH"
    digestTaskRaw := fun _ _ => "TASKRH"
    digestDiscussion := fun _ => "DISCH"
    digestDiscussionAt := fun _ _ => "DISCATH"
    digestDiscussionMsg := fun _ _ => "DISCMSGH"
    digestTypeMsgTs := fun _ _ _ => "DISCTMTH"
    digestApproval := fun _ _ _ _ => "APPRH" }

/-- Fresh project state as produced by createProjectState. -/
def freshState : ProjectState := createProjectState "p1" "build x" "t0" none

/-! ## Shared transition lemmas -/

/-- Holds when a transition result bumped the version by one over the
given state and appended exactly one history record. -/
def Bumps (state : ProjectState) (r : StateTransitionResult) : Prop :=
  r.newState.version = state.version + 1 ∧
  r.newState.history.length = state.history.length + 1

theorem bumps_applyTransition (state : ProjectState) (intent : Intent)
    (fromPhase toPhase : ProjectPhase) (now : String)
    (ov : ProjectState → ProjectState) (effects : List SideEffect) :
    Bumps state { newState := applyTransition state intent fromPhase toPhase now ov
                  sideEffects := effects } := by
  constructor <;> simp [applyTransition]

theorem bumps_failTransition (env : Env) (state : ProjectState) (intent : Intent)
    (message now : String) :
    Bumps state (failTransition env state intent message now) := by
  unfold failTransition
  dsimp only
  exact bumps_applyTransition ..

theorem bumps_rejectTransition (env : Env) (state : ProjectState) (intent : Intent)
    (message now : String) :
    Bumps state (rejectTransition env state intent message now) := by
  unfold rejectTransition
  dsimp only
  exact bumps_applyTransition ..

theorem bumps_finalizeRetryTransition (env : Env) (state : ProjectState)
    (intent : Intent) (pendingTasks : List AgentTask)
    (approvals : List ApprovalRequest) (executionSeed : Option ExecutionState)
    (now : String) (phase : ProjectPhase) (sideEffects : List SideEffect) :
    Bumps state (finalizeRetryTransition env state intent pendingTasks approvals
      executionSeed now phase sideEffects) := by
  unfold finalizeRetryTransition
  dsimp only
  exact bumps_applyTransition ..

theorem bumps_handlePlanningResult (env : Env) (state : ProjectState)
    (result : AgentResult) (updatedTasks : List AgentTask) (now : String)
    (intent : Intent) :
    Bumps state (handlePlanningResult env state result updatedTasks now intent) := by
  unfold handlePlanningResult
  dsimp only
  split
  · exact bumps_applyTransition ..
  · split
    · exact bumps_applyTransition ..
    · split
      · exact bumps_applyTransition ..
      · exact bumps_applyTransition ..

theorem bumps_handleExecutionResult (env : Env) (state : ProjectState)
    (result : AgentResult) (updatedTasks : List AgentTask) (now : String)
    (intent : Intent) :
    Bumps state (handleExecutionResult env state result updatedTasks now intent) := by
  unfold handleExecutionResult
  dsimp only
  exact bumps_applyTransition ..

theorem bumps_handleAgentResult (env : Env) (state : ProjectState)
    (result : AgentResult) (now : String) (intent : Intent) :
    Bumps state (handleAgentResult env state result now intent) := by
  unfold handleAgentResult
  dsimp only
  split
  · exact bumps_failTransition ..
  · split
    · exact bumps_handlePlanningResult ..
    · split
      · exact bumps_handleExecutionResult ..
      · exact bumps_applyTransition ..

theorem bumps_handleClarificationRequest (env : Env) (state : ProjectState)
    (payload : RequestClarificationsPayload) (now : String) (intent : Intent) :
    Bumps state (handleClarificationRequest env state payload now intent) := by
  unfold handleClarificationRequest
  dsimp only
  exact bumps_applyTransition ..

theorem bumps_handleClarificationAnswer (env : Env) (state : ProjectState)
    (payload : AnswerClarificationsPayload) (now : String) (intent : Intent) :
    Bumps state (handleClarificationAnswer env state payload now intent) := by
  unfold handleClarificationAnswer
  dsimp only
  split
  · exact bumps_failTransition ..
  · exact bumps_applyTransition ..

theorem bumps_handleFinalizeScope (env : Env) (state : ProjectState)
    (note : Option String) (now : String) (intent : Intent) :
    Bumps state (handleFinalizeScope env state note now intent) := by
  unfold handleFinalizeScope
  dsimp only
  exact bumps_applyTransition ..

theorem bumps_handlePlanApproval (env : Env) (state : ProjectState)
    (payload : ApprovePlanPayload) (now : String) (intent : Intent) :
    Bumps state (handlePlanApproval env state payload now intent) := by
  unfold handlePlanApproval
  dsimp only
  split
  · exact bumps_failTransition ..
  · split
    · exact bumps_failTransition ..
    · split
      · exact bumps_failTransition ..
      · split
        · exact bumps_applyTransition ..
        · exact bumps_applyTransition ..

theorem bumps_handleExecutionApproval (env : Env) (state : ProjectState)
    (approvalId : String) (now : String) (intent : Intent) :
    Bumps state (handleExecutionApproval env state approvalId now intent) := by
  unfold handleExecutionApproval
  dsimp only
  split
  · exact bumps_failTransition ..
  · split
    · exact bumps_failTransition ..
    · exact bumps_applyTransition ..

theorem bumps_handleRunTasks (env : Env) (state : ProjectState)
    (taskIds : List String) (now : String) (intent : Intent) :
    Bumps state (handleRunTasks env state taskIds now intent) := by
  unfold handleRunTasks
  dsimp only
  split
  · exact bumps_rejectTransition ..
  · exact bumps_applyTransition ..

/-- A retry intent whose failed-task selection is empty on the given
state: the branch of handleRetryTasks that returns the state
unchanged. -/
def isRetryNoop (state : ProjectState) (intent : Intent) : Bool :=
  match intent with
  | .retry_tasks taskIds => (failedRetryIds state (taskIds.getD [])).length == 0
  | _ => false

theorem handleRetryTasks_cases (env : Env) (state : ProjectState)
    (taskIds : List String) (now : String) (intent : Intent) :
    ((failedRetryIds state taskIds).length == 0) = true ∧
      handleRetryTasks env state taskIds now intent =
        { newState := state, sideEffects := [] } ∨
    Bumps state (handleRetryTasks env state taskIds now intent) := by
  unfold handleRetryTasks
  dsimp only
  split
  · left; constructor <;> first | assumption | rfl
  · right
    split
    · exact bumps_applyTransition ..
    · exact bumps_finalizeRetryTransition ..

/-- The state whose version a transition increments: create_project
rebuilds from the fresh bootstrap state, every other intent transitions
the incoming state. -/
def transitionBaseState (state : ProjectState) (intent : Intent) (now : String) :
    ProjectState :=
  match intent with
  | .create_project payload =>
    createProjectState payload.projectId payload.goal now payload.settings
  | _ => state

theorem transition_bumps (env : Env) (state : ProjectState) (intent : Intent)
    (now : String) :
    (isRetryNoop state intent = true ∧
      (transitionState env state intent now).newState = state) ∨
    Bumps (transitionBaseState state intent now)
      (transitionState env state intent now) := by
  cases intent with
  | create_project payload =>
    right
    exact bumps_applyTransition ..
  | add_feature d => right; exact bumps_applyTransition ..
  | request_clarifications payload =>
    right; exact bumps_handleClarificationRequest ..
  | answer_clarifications payload =>
    right; exact bumps_handleClarificationAnswer ..
  | finalize_scope note => right; exact bumps_handleFinalizeScope ..
  | approve_plan payload => right; exact bumps_handlePlanApproval ..
  | approve_execution approvalId => right; exact bumps_handleExecutionApproval ..
  | replan reason => right; exact bumps_applyTransition ..
  | run_tasks taskIds => right; exact bumps_handleRunTasks ..
  | retry_tasks taskIds =>
    rcases handleRetryTasks_cases env state (taskIds.getD []) now
      (.retry_tasks taskIds) with ⟨h1, h2⟩ | hb
    · left
      refine ⟨?_, ?_⟩
      · simpa [isRetryNoop] using h1
      · simp [transitionState, h2]
    · right
      simpa [transitionState] using hb
  | pause_execution reason => right; exact bumps_applyTransition ..
  | agent_result result => right; exact bumps_handleAgentResult ..

/-! ## C1 -/

/-- C1 counterexample: on a fresh state, `retry_tasks` selects no failed
execution task and returns the state unchanged — the version does not
become old + 1 and no history record is appended, contradicting the
claim that even this no-op rejection increments version and appends
history. -/
theorem retry_noop_counterexample :
    (transitionState env0 freshState (.retry_tasks none) "t1").newState =
      freshState ∧
    (transitionState env0 freshState (.retry_tasks none) "t1").newState.version ≠
      freshState.version + 1 ∧
    (transitionState env0 freshState (.retry_tasks none) "t1").newState.history.length ≠
      freshState.history.length + 1 := by
  refine ⟨rfl, ?_, ?_⟩ <;> decide

/-- C1 (amended): for every state whose history length equals its
version, every intent except a retry_tasks that selects no failed
execution task yields a new version equal to the base version plus one
(the base being the fresh bootstrap state for create_project and the
incoming state otherwise) and a history whose length equals the new
version; the excepted retry no-op returns the state unchanged. -/
theorem version_history_invariant (env : Env) (state : ProjectState)
    (intent : Intent) (now : String)
    (h : state.history.length = state.version) :
    (isRetryNoop state intent = true ∧
      (transitionState env state intent now).newState = state) ∨
    ((transitionState env state intent now).newState.version =
        (transitionBaseState state intent now).version + 1 ∧
      (transitionState env state intent now).newState.history.length =
        (transitionState env state intent now).newState.version) := by
  rcases transition_bumps env state intent now with hl | ⟨hv, hh⟩
  · exact Or.inl hl
  · right
    refine ⟨hv, ?_⟩
    rw [hh, hv]
    cases intent <;> simp [transitionBaseState, createProjectState, h]

/-- C1 witness: the amended theorem applied to the fresh state (whose
history length equals its version) and a pause intent. -/
theorem version_history_invariant_witness :
    (isRetryNoop freshState (.pause_execution none) = true ∧
      (transitionState env0 freshState (.pause_execution none) "t1").newState =
        freshState) ∨
    ((transitionState env0 freshState (.pause_execution none) "t1").newState.version =
        (transitionBaseState freshState (.pause_execution none) "t1").version + 1 ∧
      (transitionState env0 freshState (.pause_execution none) "t1").newState.history.length =
        (transitionState env0 freshState (.pause_execution none) "t1").newState.version) :=
  version_history_invariant env0 freshState (.pause_execution none) "t1" rfl

/-! ## C10 -/

/-- C10: a create_project transition yields a state with no context,
even when the payload supplies one; only projectId, goal and the merged
settings are carried over from the payload. -/
theorem create_project_drops_context (env : Env) (state : ProjectState)
    (payload : CreateProjectPayload) (now : String) :
    (transitionState env state (.create_project payload) now).newState.context =
      none ∧
    (transitionState env state (.create_project payload) now).newState.projectId =
      payload.projectId ∧
    (transitionState env state (.create_project payload) now).newState.goal =
      some payload.goal ∧
    (transitionState env state (.create_project payload) now).newState.settings =
      mergeSettings payload.settings := by
  refine ⟨?_, ?_, ?_, ?_⟩ <;>
    simp [transitionState, applyTransition, createProjectState]

/-! ## C2 -/

/-- Payload of the C2 failing input. -/
def facadeDemoPayload : CreateProjectPayload :=
  { projectId := "p1", goal := "build x" }

/-- C2: at the concrete failing input (no loaded state, a create_project
intent), the facade trace runs the dispatch side effect before the
state write — the modelled `dispatcher.dispatch` call in handleIntent
executes the side effects, and the store save only happens after it
returns, so the state is not written before side effects are
invoked. -/
theorem handleIntent_effect_precedes_save :
    (handleIntent env0 none (.create_project facadeDemoPayload) "t1").map
      (fun r => savedBeforeAllEffects r.2) = some false := by
  rfl

/-! ## C5 -/

/-- Pending planning task used to exhibit the run_tasks target bug. -/
def planningOnlyTask : AgentTask :=
  { id := "plan-1", type := .planning, status := .pending,
    input := .null, createdAt := "t0" }

/-- State holding only a pending (undispatched) planning task and no
approvals. -/
def planningPendingState : ProjectState :=
  { freshState with pendingTasks := [planningOnlyTask] }

/-- An outstanding execution_start approval, for exercising the
rejection branch of run_tasks. -/
def execApproval0 : ApprovalRequest :=
  { id := "appr-1", type := .execution_start, requestedAt := "t0",
    details := .null }

/-- State with a pending execution approval. -/
def approvalPendingState : ProjectState :=
  { freshState with approvals := [execApproval0] }

/-- C5 counterexample: run_tasks with no taskIds on a state whose only
pending task is a planning task marks that planning task dispatched and
emits a dispatch effect for it — the claim says only pending execution
tasks are selected. -/
theorem run_tasks_planning_counterexample :
    planningOnlyTask.type = .planning ∧
    (transitionState env0 planningPendingState (.run_tasks none) "t1").newState.pendingTasks =
      [{ planningOnlyTask with dispatchedAt := some "t1" }] ∧
    (transitionState env0 planningPendingState (.run_tasks none) "t1").sideEffects =
      [.dispatch_agent_task { planningOnlyTask with dispatchedAt := some "t1" }] := by
  refine ⟨rfl, rfl, rfl⟩

/-- Predicate under which markTasksForDispatch newly stamps a task:
listed, still pending, not already dispatched. -/
def dispatchTarget (targetIds : List String) (task : AgentTask) : Bool :=
  targetIds.contains task.id && task.status == .pending &&
    !(optStrTruthy task.dispatchedAt)

/-- C5 (amended): with an execution approval pending, run_tasks is
rejected as a no-op keeping the phase, leaving tasks untouched,
emitting no effects and appending one discussion note.  Otherwise
exactly the listed tasks (or, when no taskIds are given, all pending
tasks of either type — not only execution tasks) that are pending and
undispatched are stamped dispatched, with one dispatch effect per newly
stamped task, and the phase is unchanged. -/
theorem run_tasks_amended (env : Env) (state : ProjectState)
    (taskIds : Option (List String)) (now : String) :
    (hasExecutionApprovalPending state.approvals = true →
      (transitionState env state (.run_tasks taskIds) now).newState.phase =
        state.phase ∧
      (transitionState env state (.run_tasks taskIds) now).newState.pendingTasks =
        state.pendingTasks ∧
      (transitionState env state (.run_tasks taskIds) now).sideEffects = [] ∧
      (transitionState env state (.run_tasks taskIds) now).newState.discussion.length =
        state.discussion.length + 1) ∧
    (hasExecutionApprovalPending state.approvals = false →
      (transitionState env state (.run_tasks taskIds) now).newState.phase =
        state.phase ∧
      (transitionState env state (.run_tasks taskIds) now).newState.pendingTasks =
        state.pendingTasks.map (fun t =>
          if dispatchTarget (runTaskTargets state (taskIds.getD [])) t then
            { t with dispatchedAt := some now }
          else t) ∧
      (transitionState env state (.run_tasks taskIds) now).sideEffects =
        (state.pendingTasks.filter
          (fun t => dispatchTarget (runTaskTargets state (taskIds.getD [])) t)).map
          (fun t => .dispatch_agent_task { t with dispatchedAt := some now })) := by
  constructor
  · intro h
    refine ⟨?_, ?_, ?_, ?_⟩ <;>
      simp [transitionState, handleRunTasks, h, rejectTransition,
        applyTransition, appendDiscussion, systemNote]
  · intro h
    refine ⟨?_, ?_, ?_⟩ <;>
      simp [transitionState, handleRunTasks, h, applyTransition,
        markTasksForDispatch, dispatchTarget, List.map_map, Function.comp_def]

/-- C5 witness: the amended theorem applied at concrete inputs — the
rejection branch on a state with a pending execution_start approval,
and the dispatch branch on the fresh state. -/
theorem run_tasks_amended_witness :
    ((transitionState env0 approvalPendingState (.run_tasks none) "t1").newState.phase =
        approvalPendingState.phase ∧
      (transitionState env0 approvalPendingState (.run_tasks none) "t1").newState.pendingTasks =
        approvalPendingState.pendingTasks ∧
      (transitionState env0 approvalPendingState (.run_tasks none) "t1").sideEffects = [] ∧
      (transitionState env0 approvalPendingState (.run_tasks none) "t1").newState.discussion.length =
        approvalPendingState.discussion.length + 1) ∧
    ((transitionState env0 freshState (.run_tasks none) "t1").newState.phase =
        freshState.phase ∧
      (transitionState env0 freshState (.run_tasks none) "t1").newState.pendingTasks =
        freshState.pendingTasks.map (fun t =>
          if dispatchTarget (runTaskTargets freshState []) t then
            { t with dispatchedAt := some "t1" }
          else t) ∧
      (transitionState env0 freshState (.run_tasks none) "t1").sideEffects =
        (freshState.pendingTasks.filter
          (fun t => dispatchTarget (runTaskTargets freshState []) t)).map
          (fun t => .dispatch_agent_task { t with dispatchedAt := some "t1" })) :=
  ⟨(run_tasks_amended env0 approvalPendingState none "t1").1 rfl,
   (run_tasks_amended env0 freshState none "t1").2 rfl⟩

/-! ## C3: counting lemmas -/

theorem filter_length_eq_iff {α : Type} (p : α → Bool) (l : List α) :
    ((l.filter p).length = l.length) ↔ ∀ a ∈ l, p a = true := by
  induction l with
  | nil => simp
  | cons a rest ih =>
    cases h : p a with
    | false =>
      simp only [List.filter_cons, h, if_neg Bool.false_ne_true, List.length_cons]
      constructor
      · intro hl
        have := List.length_filter_le p rest
        omega
      · intro hall
        have := hall a (List.mem_cons_self a rest)
        rw [h] at this
        cases this
    | true =>
      simp [List.filter_cons, h, ih]

theorem filter_disjoint_le (l : List AgentTask) :
    (l.filter (fun t => t.status == AgentTaskStatus.completed)).length +
      (l.filter (fun t => t.status == AgentTaskStatus.failed)).length ≤
      l.length := by
  induction l with
  | nil => simp
  | cons a rest ih =>
    cases ha : a.status <;> simp [List.filter_cons, ha] <;> omega

theorem sub_counts_zero_iff (l : List AgentTask) :
    (l.length - (l.filter (fun t => t.status == AgentTaskStatus.completed)).length -
      (l.filter (fun t => t.status == AgentTaskStatus.failed)).length = 0) ↔
    ∀ t ∈ l, t.status = .completed ∨ t.status = .failed := by
  induction l with
  | nil => simp
  | cons a rest ih =>
    have hle := filter_disjoint_le rest
    cases ha : a.status with
    | pending =>
      simp [List.filter_cons, ha]
      omega
    | in_progress =>
      simp [List.filter_cons, ha]
      omega
    | completed =>
      simp only [List.filter_cons, ha, List.length_cons]
      simp only [show (AgentTaskStatus.completed == AgentTaskStatus.completed) = true
        from rfl, show (AgentTaskStatus.completed == AgentTaskStatus.failed) = false
        from rfl, if_pos, if_neg Bool.false_ne_true, List.length_cons]
      rw [List.forall_mem_cons, ← ih]
      constructor
      · intro h2
        exact ⟨Or.inl ha, by omega⟩
      · intro h2
        omega
    | failed =>
      simp only [List.filter_cons, ha, List.length_cons]
      simp only [show (AgentTaskStatus.failed == AgentTaskStatus.completed) = false
        from rfl, show (AgentTaskStatus.failed == AgentTaskStatus.failed) = true
        from rfl, if_pos, if_neg Bool.false_ne_true, List.length_cons]
      rw [List.forall_mem_cons, ← ih]
      constructor
      · intro h2
        exact ⟨Or.inr ha, by omega⟩
      · intro h2
        omega

theorem applyTransition_phase (state : ProjectState) (intent : Intent)
    (fromPhase toPhase : ProjectPhase) (now : String)
    (ov : ProjectState → ProjectState) :
    (applyTransition state intent fromPhase toPhase now ov).phase = toPhase := rfl

/-- C3: for an agent_result whose task is a known execution task, the
next phase is completed when every execution task is completed and the
recomputed failures list is empty; error when failures is non-empty and
no execution task is still pending or in progress; otherwise the phase
is unchanged. -/
theorem execution_result_phase (env : Env) (state : ProjectState)
    (result : AgentResult) (now : String) (task : AgentTask)
    (ts : List AgentTask) (ex : ExecutionState)
    (hfind : state.pendingTasks.find? (fun t => t.id == result.taskId) = some task)
    (htype : task.type = .execution)
    (hts : ts = applyResultStatus state.pendingTasks result)
    (hex : ex = updateExecutionState state.execution ts result) :
    ((∀ t ∈ ts, t.type = AgentTaskType.execution →
        t.status = AgentTaskStatus.completed) ∧ ex.failures = [] →
      (transitionState env state (.agent_result result) now).newState.phase =
        ProjectPhase.completed) ∧
    (ex.failures ≠ [] ∧
      (∀ t ∈ ts, t.type = AgentTaskType.execution →
        t.status ≠ AgentTaskStatus.pending ∧
        t.status ≠ AgentTaskStatus.in_progress) →
      (transitionState env state (.agent_result result) now).newState.phase =
        ProjectPhase.error) ∧
    (¬((∀ t ∈ ts, t.type = AgentTaskType.execution →
          t.status = AgentTaskStatus.completed) ∧ ex.failures = []) ∧
     ¬(ex.failures ≠ [] ∧
        (∀ t ∈ ts, t.type = AgentTaskType.execution →
          t.status ≠ AgentTaskStatus.pending ∧
          t.status ≠ AgentTaskStatus.in_progress)) →
      (transitionState env state (.agent_result result) now).newState.phase =
        state.phase) := by
  have hred : transitionState env state (.agent_result result) now =
      handleExecutionResult env state result ts now (.agent_result result) := by
    rw [hts]
    simp only [transitionState, handleAgentResult, hfind, htype]
    simp
  -- the execution-task sublist the summary counts
  have hsum : ex.summary =
      buildExecutionSummary (ts.filter (fun t => t.type == AgentTaskType.execution)) := by
    rw [hex]; rfl
  have hmem : task ∈ state.pendingTasks := List.mem_of_find?_eq_some hfind
  have hexecMem : ∃ u ∈ ts.filter (fun t => t.type == AgentTaskType.execution), True := by
    rw [hts]
    unfold applyResultStatus
    refine ⟨_, List.mem_filter.mpr ⟨List.mem_map_of_mem _ hmem, ?_⟩, trivial⟩
    by_cases h : (task.id == result.taskId) = true <;> simp [h, htype]
  have htotalPos : 0 <
      (ts.filter (fun t => t.type == AgentTaskType.execution)).length := by
    rcases hexecMem with ⟨u, hu, -⟩
    exact List.length_pos.mpr (List.ne_nil_of_mem hu)
  have hphase : (transitionState env state (.agent_result result) now).newState.phase =
      (if (decide (ex.summary.total > 0) &&
            (ex.summary.completed == ex.summary.total) &&
            (ex.failures.length == 0)) = true then ProjectPhase.completed
       else if (decide (ex.failures.length > 0) &&
            ((ex.summary.total - ex.summary.completed - ex.summary.failed == 0))) = true
       then ProjectPhase.error
       else state.phase) := by
    rw [hred]
    unfold handleExecutionResult
    dsimp only
    rw [← hex]
    exact applyTransition_phase ..
  refine ⟨?_, ?_, ?_⟩
  · rintro ⟨hall, hfailnil⟩
    rw [hphase]
    have hcomp : (ts.filter (fun t => t.type == AgentTaskType.execution)).filter
        (fun t => t.status == AgentTaskStatus.completed) =
        ts.filter (fun t => t.type == AgentTaskType.execution) := by
      apply List.filter_eq_self.mpr
      intro a ha
      rcases List.mem_filter.mp ha with ⟨hat, haty⟩
      simp [hall a hat (by simpa using haty)]
    have hc1 : (decide (ex.summary.total > 0) &&
        (ex.summary.completed == ex.summary.total) &&
        (ex.failures.length == 0)) = true := by
      rw [hsum]
      simp only [buildExecutionSummary, Bool.and_eq_true, decide_eq_true_eq,
        beq_iff_eq]
      refine ⟨⟨htotalPos, ?_⟩, ?_⟩
      · rw [hcomp]
      · rw [hfailnil]; rfl
    rw [if_pos hc1]
  · rintro ⟨hne, hnop⟩
    rw [hphase]
    have hc1 : ¬((decide (ex.summary.total > 0) &&
        (ex.summary.completed == ex.summary.total) &&
        (ex.failures.length == 0)) = true) := by
      simp only [Bool.and_eq_true, decide_eq_true_eq, beq_iff_eq]
      rintro ⟨-, hlen⟩
      exact hne (List.length_eq_zero.mp hlen)
    have hc2 : (decide (ex.failures.length > 0) &&
        ((ex.summary.total - ex.summary.completed - ex.summary.failed == 0))) = true := by
      simp only [Bool.and_eq_true, decide_eq_true_eq, beq_iff_eq]
      constructor
      · exact List.length_pos.mpr hne
      · rw [hsum]
        simp only [buildExecutionSummary]
        apply (sub_counts_zero_iff _).mpr
        intro t ht
        rcases List.mem_filter.mp ht with ⟨hat, haty⟩
        rcases hnop t hat (by simpa using haty) with ⟨hp, hi⟩
        cases h : t.status with
        | pending => exact absurd h hp
        | in_progress => exact absurd h hi
        | completed => exact Or.inl rfl
        | failed => exact Or.inr rfl
    rw [if_neg hc1, if_pos hc2]
  · rintro ⟨hnA, hnB⟩
    rw [hphase]
    have hc1 : ¬((decide (ex.summary.total > 0) &&
        (ex.summary.completed == ex.summary.total) &&
        (ex.failures.length == 0)) = true) := by
      intro hc
      rw [hsum] at hc
      simp only [buildExecutionSummary, Bool.and_eq_true, decide_eq_true_eq,
        beq_iff_eq] at hc
      rcases hc with ⟨⟨-, hcomp⟩, hflen⟩
      apply hnA
      constructor
      · intro t ht hty
        have := (filter_length_eq_iff _ _).mp hcomp
        have hmem2 : t ∈ ts.filter (fun t => t.type == AgentTaskType.execution) :=
          List.mem_filter.mpr ⟨ht, by simp [hty]⟩
        simpa using this t hmem2
      · exact List.length_eq_zero.mp hflen
    have hc2 : ¬((decide (ex.failures.length > 0) &&
        ((ex.summary.total - ex.summary.completed - ex.summary.failed == 0))) = true) := by
      intro hc
      rw [hsum] at hc
      simp only [buildExecutionSummary, Bool.and_eq_true, decide_eq_true_eq,
        beq_iff_eq] at hc
      rcases hc with ⟨hflen, hsub⟩
      apply hnB
      constructor
      · intro hnil
        rw [hnil] at hflen
        simp at hflen
      · intro t ht hty
        have hall2 := (sub_counts_zero_iff _).mp hsub
        have hmem2 : t ∈ ts.filter (fun t => t.type == AgentTaskType.execution) :=
          List.mem_filter.mpr ⟨ht, by simp [hty]⟩
        rcases hall2 t hmem2 with h | h <;> rw [h] <;> exact ⟨by simp, by simp⟩
    rw [if_neg hc1, if_neg hc2]

/-- Dispatched execution task used in concrete executions. -/
def execTask0 : AgentTask :=
  { id := "exec-1", type := .execution, status := .pending,
    input := .null, createdAt := "t0", dispatchedAt := some "t0" }

/-- Executing state with a single dispatched execution task. -/
def executingState : ProjectState :=
  { freshState with pendingTasks := [execTask0], phase := .executing }

/-- Successful result for the execution task. -/
def execResult0 : AgentResult :=
  { taskId := "exec-1", status := .success, completedAt := "t1" }

/-- C3 witness: the phase theorem applied to a one-task executing state
whose only execution task completes — the phase becomes completed. -/
theorem execution_result_phase_witness :
    (transitionState env0 executingState (.agent_result execResult0) "t1").newState.phase =
      ProjectPhase.completed :=
  (execution_result_phase env0 executingState execResult0 "t1" execTask0
      (applyResultStatus executingState.pendingTasks execResult0)
      (updateExecutionState executingState.execution
        (applyResultStatus executingState.pendingTasks execResult0) execResult0)
      rfl rfl rfl rfl).1 ⟨by decide, rfl⟩

/-! ## C4 -/

def Jsonish.isObj : Jsonish → Bool
  | .obj _ => true
  | _ => false

/-- Acceptance predicate in the words of the claim: the object contains
exactly one of a questions array holding exactly one non-empty question
string, or a plan; an object with both fields present, or with neither,
is rejected. -/
def claimAcceptsPlanningOutput (raw : Jsonish) : Bool :=
  (match raw.get "questions" with
   | some (.arr [Jsonish.str q]) => q != ""
   | _ => false) && !(raw.get "plan").isSome ||
  (match raw.get "plan" with
   | some p => planDraftValid p
   | none => false) && !(raw.get "questions").isSome

/-- C4 counterexample: the decoded object with a single empty question
string is accepted by the validator, while the claim requires the one
question to be non-empty. -/
def emptyQuestionOutput : Jsonish := .obj [("questions", .arr [.str ""])]

theorem validator_accepts_empty_question :
    parsePlanningOutputSucceeds emptyQuestionOutput = true ∧
    claimAcceptsPlanningOutput emptyQuestionOutput = false := ⟨rfl, rfl⟩

/-- Well-typedness of the questions field: absent, or an array of at
most one string (the string may be empty). -/
def questionsFieldWellTyped (raw : Jsonish) : Bool :=
  match raw.get "questions" with
  | none => true
  | some (.arr qs) => qs.length ≤ 1 && qs.all isStrJson
  | some _ => false

/-- Well-typedness of the plan field: absent, or a valid plan draft. -/
def planFieldWellTyped (raw : Jsonish) : Bool :=
  match raw.get "plan" with
  | none => true
  | some p => planDraftValid p

/-- A present, non-empty questions array (an empty array counts as
absent). -/
def questionsNonempty (raw : Jsonish) : Bool :=
  match raw.get "questions" with
  | some (.arr (_ :: _)) => true
  | _ => false

theorem valid_eq_amended (raw : Jsonish) :
    rawPlanningOutputValid raw =
    (raw.isObj && questionsFieldWellTyped raw && planFieldWellTyped raw &&
      (questionsNonempty raw != (raw.get "plan").isSome)) := by
  unfold rawPlanningOutputValid Jsonish.isObj questionsFieldWellTyped
    planFieldWellTyped questionsNonempty
  cases raw with
  | obj fields =>
    cases hq : (Jsonish.obj fields).get "questions" with
    | none => simp
    | some q =>
      cases q <;> simp
      case arr qs => cases qs <;> simp
  | null => simp
  | bool b => simp
  | num n => simp
  | str s => simp
  | arr xs => simp

theorem parse_succeeds_iff_valid (raw : Jsonish) :
    parsePlanningOutputSucceeds raw = rawPlanningOutputValid raw := by
  unfold parsePlanningOutputSucceeds parsePlanningOutputDecoded
  by_cases hv : rawPlanningOutputValid raw = true
  · rw [hv, if_pos rfl]
    cases raw with
    | obj fields =>
      unfold rawPlanningOutputValid at hv
      simp only [Bool.and_eq_true, bne_iff_ne] at hv
      rcases hv with ⟨⟨hqok, -⟩, hxor⟩
      cases hq : (Jsonish.obj fields).get "questions" with
      | none =>
        rw [hq] at hxor
        have hp : ∃ p, (Jsonish.obj fields).get "plan" = some p := by
          cases h : (Jsonish.obj fields).get "plan" with
          | some p => exact ⟨p, rfl⟩
          | none => rw [h] at hxor; simp at hxor
        rcases hp with ⟨p, hpp⟩
        rw [hpp]
      | some q =>
        rw [hq] at hqok hxor
        cases q with
        | arr qs =>
          cases qs with
          | nil =>
            have hp : ∃ p, (Jsonish.obj fields).get "plan" = some p := by
              cases h : (Jsonish.obj fields).get "plan" with
              | some p => exact ⟨p, rfl⟩
              | none => rw [h] at hxor; simp at hxor
            rcases hp with ⟨p, hpp⟩
            rw [hpp]
          | cons x xs =>
            simp only [Bool.and_eq_true, List.all_cons] at hqok
            rcases hqok with ⟨hlen, hx, hxs⟩
            cases xs with
            | cons y ys => simp at hlen
            | nil =>
              cases x with
              | str s => simp
              | null => simp [isStrJson] at hx
              | bool b => simp [isStrJson] at hx
              | num n => simp [isStrJson] at hx
              | arr es => simp [isStrJson] at hx
              | obj fs => simp [isStrJson] at hx
        | null => simp at hqok
        | bool b => simp at hqok
        | num n => simp at hqok
        | str s => simp at hqok
        | obj fs => simp at hqok
    | null => simp [rawPlanningOutputValid] at hv
    | bool b => simp [rawPlanningOutputValid] at hv
    | num n => simp [rawPlanningOutputValid] at hv
    | str s => simp [rawPlanningOutputValid] at hv
    | arr xs => simp [rawPlanningOutputValid] at hv
  · have hv2 : rawPlanningOutputValid raw = false := by
      cases h : rawPlanningOutputValid raw
      · rfl
      · exact absurd h hv
    rw [hv2, if_neg (by simp)]

/-- C4 (amended): the C2 validator succeeds iff the decoded value is an
object whose questions field, when present, is an array of at most one
string (the string may be empty) and whose plan field, when present, is
a valid plan draft, and exactly one of "questions non-empty" and "plan
present" holds — an empty questions array counts as absent, so it may
coexist with a plan. -/
theorem validator_amended (raw : Jsonish) :
    parsePlanningOutputSucceeds raw = true ↔
    (raw.isObj && questionsFieldWellTyped raw && planFieldWellTyped raw &&
      (questionsNonempty raw != (raw.get "plan").isSome)) = true := by
  rw [parse_succeeds_iff_valid, valid_eq_amended]

/-! ## C8 -/

/-- C8: JSON extraction follows the claimed order — a full parse is
tried only when the trimmed text begins with an opening brace; on its
failure the body of the first fenced code block is parsed; on that
failure the substring from the first opening brace to the last closing
brace is parsed; and when all three fail the "No valid JSON object
found in response" error is surfaced. -/
theorem extract_json_order (parse : String → Option Jsonish) (raw : String) :
    (startsWithLbrace (jsTrim raw) = false →
      fullParseStep parse (jsTrim raw) = none) ∧
    (∀ j, fullParseStep parse (jsTrim raw) = some j →
      extractJsonFromResponse parse raw = .ok j) ∧
    (∀ j, fullParseStep parse (jsTrim raw) = none →
      fenceParseStep parse (jsTrim raw) = some j →
      extractJsonFromResponse parse raw = .ok j) ∧
    (∀ j, fullParseStep parse (jsTrim raw) = none →
      fenceParseStep parse (jsTrim raw) = none →
      braceParseStep parse (jsTrim raw) = some j →
      extractJsonFromResponse parse raw = .ok j) ∧
    (fullParseStep parse (jsTrim raw) = none →
      fenceParseStep parse (jsTrim raw) = none →
      braceParseStep parse (jsTrim raw) = none →
      extractJsonFromResponse parse raw =
        .error "No valid JSON object found in response") := by
  refine ⟨?_, ?_, ?_, ?_, ?_⟩
  · intro h
    unfold fullParseStep
    rw [h]
    simp
  · intro j h
    unfold extractJsonFromResponse
    dsimp only
    rw [h]
  · intro j h1 h2
    unfold extractJsonFromResponse
    dsimp only
    rw [h1, h2]
  · intro j h1 h2 h3
    unfold extractJsonFromResponse
    dsimp only
    rw [h1, h2, h3]
  · intro h1 h2 h3
    unfold extractJsonFromResponse
    dsimp only
    rw [h1, h2, h3]

/-- Toy parser for the C8 witness: recognizes exactly the two-character
object text. -/
def parseStub : String → Option Jsonish :=
  fun s => if s == "\x7b\x7d" then some (.obj []) else none

/-- C8 witness: the ordering theorem applied at concrete inputs — a
bare object (step 1), a fenced object with prose around it (step 2), an
object embedded in prose (step 3), and a braceless text (step 4). -/
theorem extract_json_order_witness :
    extractJsonFromResponse parseStub " \x7b\x7d " = .ok (.obj []) ∧
    extractJsonFromResponse parseStub "note ```json \x7b\x7d``` end" =
      .ok (.obj []) ∧
    extractJsonFromResponse parseStub "see \x7b\x7d ok" = .ok (.obj []) ∧
    extractJsonFromResponse parseStub "no object here" =
      .error "No valid JSON object found in response" :=
  ⟨(extract_json_order parseStub " \x7b\x7d ").2.1 (.obj []) rfl,
   (extract_json_order parseStub "note ```json \x7b\x7d``` end").2.2.1
     (.obj []) rfl rfl,
   (extract_json_order parseStub "see \x7b\x7d ok").2.2.2.1
     (.obj []) rfl rfl rfl,
   (extract_json_order parseStub "no object here").2.2.2.2 rfl rfl rfl⟩

/-! ## C9 -/

/-- Topic coverage as the claim words it: an answered or resolved
clarification whose question or answer contains (case-insensitively)
one of the keywords and whose answer is non-empty. -/
def claimTopicCovered (clarifications : List ClarificationRecord)
    (keywords : List String) : Bool :=
  clarifications.any (fun record =>
    (record.status == .answered || record.status == .resolved) &&
    (record.questions.zip record.answers).any (fun p =>
      p.2 != "" &&
      keywords.any (fun k =>
        strContains (jsToLower p.1) (jsToLower k) ||
        strContains (jsToLower p.2) (jsToLower k))))

/-- Readiness as the claim words it: final stage, or all five required
fields covered, the four context fields alternatively by claim-covered
clarifications. -/
def claimReadiness (input : PlanningInput) : Bool :=
  input.stage == .final ||
  (hasNonEmptyString input.goal &&
   ((checkContextCoverage input.context).icp ||
     claimTopicCovered input.clarifications icpKeywords) &&
   ((checkContextCoverage input.context).techStack ||
     claimTopicCovered input.clarifications techStackKeywords) &&
   ((checkContextCoverage input.context).constraints ||
     claimTopicCovered input.clarifications constraintsKeywords) &&
   ((checkContextCoverage input.context).coreFeatures ||
     claimTopicCovered input.clarifications coreFeaturesKeywords))

/-- Clarification whose question is empty but whose answer names the
icp. -/
def emptyQuestionClarification : ClarificationRecord :=
  { id := "c1", questions := [""], answers := ["the icp is smb developers"],
    status := .answered, createdAt := "t0" }

/-- Planning input covered on goal, techStack, constraints and
coreFeatures via context, and on icp only via the empty-question
clarification. -/
def readinessGapInput : PlanningInput :=
  { goal := some "build x"
    context := some { techStack := some ["go"], constraints := some ["oss"],
                      coreFeatures := some ["auth"] }
    clarifications := [emptyQuestionClarification]
    stage := .clarification }

/-- C9 counterexample: the claim predicate holds at this input (the
answered clarification answer contains the icp keyword and is
non-empty), but the code is not ready — extractAnsweredClarifications
drops pairs whose question is the empty string. -/
theorem readiness_claim_counterexample :
    isReadyToPlan readinessGapInput = false ∧
    claimReadiness readinessGapInput = true := ⟨rfl, rfl⟩

/-- Topic coverage as the code implements it: the pair must also have a
non-empty question, and the answer must be non-blank after
trimming. -/
def amendedTopicCovered (clarifications : List ClarificationRecord)
    (keywords : List String) : Bool :=
  clarifications.any (fun record =>
    (record.status == .answered || record.status == .resolved) &&
    (record.questions.zip record.answers).any (fun p =>
      p.1 != "" && jsTrim p.2 != "" &&
      keywords.any (fun k =>
        strContains (jsToLower p.1) (jsToLower k) ||
        strContains (jsToLower p.2) (jsToLower k))))

/-- Amended readiness: as the claim, with the code-side clarification
condition (question non-empty, answer non-blank). -/
def amendedReadiness (input : PlanningInput) : Bool :=
  input.stage == .final ||
  (hasNonEmptyString input.goal &&
   ((checkContextCoverage input.context).icp ||
     amendedTopicCovered input.clarifications icpKeywords) &&
   ((checkContextCoverage input.context).techStack ||
     amendedTopicCovered input.clarifications techStackKeywords) &&
   ((checkContextCoverage input.context).constraints ||
     amendedTopicCovered input.clarifications constraintsKeywords) &&
   ((checkContextCoverage input.context).coreFeatures ||
     amendedTopicCovered input.clarifications coreFeaturesKeywords))

theorem any_and_const {α : Type} (l : List α) (f : α → Bool) (t : Bool) :
    (l.any fun a => f a && t) = (l.any f && t) := by
  cases t <;> simp

theorem any_flatMap {α β : Type} (f : α → List β) (p : β → Bool) (l : List α) :
    ((l.flatMap f).any p) = l.any (fun a => (f a).any p) := by
  induction l with
  | nil => rfl
  | cons a t ih => simp [List.flatMap_cons, List.any_append, ih]

theorem any_filterMap {α β : Type} (f : α → Option β) (p : β → Bool)
    (l : List α) :
    ((l.filterMap f).any p) = l.any (fun a => ((f a).map p).getD false) := by
  induction l with
  | nil => rfl
  | cons a t ih =>
    cases h : f a <;> simp [List.filterMap_cons, h, ih]

theorem trim_absorb (x : String) :
    ((x != "") && (jsTrim x != "")) = (jsTrim x != "") := by
  by_cases h : x = ""
  · subst h; rfl
  · simp [h]

theorem missing_ready (b1 b2 b3 b4 b5 : Bool) :
    ((((if b1 then ([] : List String) else ["goal"]) ++
       (if b2 then [] else ["icp"]) ++
       (if b3 then [] else ["techStack"]) ++
       (if b4 then [] else ["constraints"]) ++
       (if b5 then [] else ["coreFeatures"])).length == 0)) =
      (b1 && b2 && b3 && b4 && b5) := by
  cases b1 <;> cases b2 <;> cases b3 <;> cases b4 <;> cases b5 <;> rfl

theorem checkReadiness_ready (input : PlanningInput) :
    (checkReadiness input).ready =
      (hasNonEmptyString input.goal &&
       ((checkContextCoverage input.context).icp ||
         hasAnswerForTopic (extractAnsweredClarifications input.clarifications)
           icpKeywords) &&
       ((checkContextCoverage input.context).techStack ||
         hasAnswerForTopic (extractAnsweredClarifications input.clarifications)
           techStackKeywords) &&
       ((checkContextCoverage input.context).constraints ||
         hasAnswerForTopic (extractAnsweredClarifications input.clarifications)
           constraintsKeywords) &&
       ((checkContextCoverage input.context).coreFeatures ||
         hasAnswerForTopic (extractAnsweredClarifications input.clarifications)
           coreFeaturesKeywords)) := by
  unfold checkReadiness
  dsimp only
  rw [missing_ready]

theorem pair_topic_eq (keywords : List String) (p : String × String) :
    (((if p.1 != "" && p.2 != "" then
        some ({ question := p.1, answer := p.2 } : AnsweredClarification)
      else none).map (fun c => (keywords.map jsToLower).any (fun keyword =>
         (strContains (jsToLower c.question) keyword ||
          strContains (jsToLower c.answer) keyword) &&
         jsTrim c.answer != ""))).getD false) =
    (p.1 != "" && jsTrim p.2 != "" &&
      keywords.any (fun k =>
        strContains (jsToLower p.1) (jsToLower k) ||
        strContains (jsToLower p.2) (jsToLower k))) := by
  by_cases h1 : (p.1 != "") = true
  · by_cases h2 : (p.2 != "") = true
    · simp only [h1, h2, Bool.and_self, if_pos, Bool.true_and]
      dsimp only [Option.map, Option.getD]
      rw [any_and_const, List.any_map]
      cases ht : (jsTrim p.2 != "") <;>
        simp [Function.comp_def, Bool.and_comm, ht]
    · have h2e : p.2 = "" := by
        cases h : p.2 == "" with
        | true => exact eq_of_beq h
        | false => exact absurd (by simp [bne, h]) h2
      have ht : jsTrim "" = "" := rfl
      rw [h2e]
      simp [ht]
  · have h1e : p.1 = "" := by
      cases h : p.1 == "" with
      | true => exact eq_of_beq h
      | false => exact absurd (by simp [bne, h]) h1
    rw [h1e]
    simp

theorem topic_eq (clarifications : List ClarificationRecord)
    (keywords : List String) :
    hasAnswerForTopic (extractAnsweredClarifications clarifications) keywords =
      amendedTopicCovered clarifications keywords := by
  unfold hasAnswerForTopic extractAnsweredClarifications amendedTopicCovered
  dsimp only
  rw [any_flatMap]
  congr 1
  funext record
  by_cases hs : (record.status == ClarificationStatus.answered ||
      record.status == ClarificationStatus.resolved) = true
  · rw [if_pos hs, hs, Bool.true_and, any_filterMap]
    congr 1
    funext p
    exact pair_topic_eq keywords p
  · have hs2 : (record.status == ClarificationStatus.answered ||
        record.status == ClarificationStatus.resolved) = false := by
      cases h : (record.status == ClarificationStatus.answered ||
        record.status == ClarificationStatus.resolved)
      · rfl
      · exact absurd h hs
    rw [if_neg (by simp [hs2]), hs2]
    simp

/-- C9 (amended): readiness for final planning holds iff the stage is
final, or the goal is non-blank and each of the four context fields is
covered either by its non-empty structured context field or by an
answered or resolved clarification pair whose question is non-empty,
whose answer is non-blank, and whose question or answer contains
(case-insensitively) one of that field's keywords. -/
theorem readiness_amended (input : PlanningInput) :
    isReadyToPlan input = amendedReadiness input := by
  unfold isReadyToPlan amendedReadiness
  by_cases hs : (input.stage == PlanningStage.final) = true
  · simp [hs]
  · have hs2 : (input.stage == PlanningStage.final) = false := by
      cases h : (input.stage == PlanningStage.final)
      · rfl
      · exact absurd h hs
    rw [if_neg (by simp [hs2]), hs2, Bool.false_or, checkReadiness_ready,
      topic_eq, topic_eq, topic_eq, topic_eq]

/-! ## C6 -/

theorem find?_set_of_any {α : Type} (m : List (String × α)) (k : String) (v : α)
    (h : (m.any fun p => p.1 == k) = true) :
    ((m.map (fun p => if p.1 == k then (k, v) else p)).find?
      (fun p => p.1 == k)) = some (k, v) := by
  induction m with
  | nil => simp at h
  | cons a t ih =>
    rw [List.map_cons]
    by_cases ha : (a.1 == k) = true
    · rw [if_pos ha]
      apply List.find?_cons_of_pos
      simp
    · have ht : (t.any fun p => p.1 == k) = true := by
        rw [List.any_cons] at h
        rcases (Bool.or_eq_true _ _).mp h with hx | hx
        · exact absurd hx ha
        · exact hx
      rw [if_neg ha, List.find?_cons_of_neg _ (by simpa using ha)]
      exact ih ht

theorem find?_append_single {α : Type} (m : List (String × α)) (k : String)
    (v : α) (h : (m.any fun p => p.1 == k) = false) :
    ((m ++ [(k, v)]).find? (fun p => p.1 == k)) = some (k, v) := by
  induction m with
  | nil =>
    rw [List.nil_append]
    apply List.find?_cons_of_pos
    simp
  | cons a t ih =>
    rw [List.any_cons] at h
    have ha : (a.1 == k) = false := by
      cases hx : (a.1 == k)
      · rfl
      · rw [hx] at h; simp at h
    have ht : (t.any fun p => p.1 == k) = false := by
      cases hx : (t.any fun p => p.1 == k)
      · rfl
      · rw [hx] at h; simp at h
    rw [List.cons_append, List.find?_cons_of_neg _ (by simp [ha])]
    exact ih ht

/-- Setting a key and reading it back yields the newly stored value:
insertion by spread overwrites any existing entry with that key. -/
theorem recordGet_recordSet {α : Type} (m : List (String × α)) (k : String)
    (v : α) : recordGet (recordSet m k v) k = some v := by
  unfold recordGet recordSet
  by_cases h : (m.any fun p => p.1 == k) = true
  · rw [if_pos h, find?_set_of_any m k v h]
    rfl
  · have h2 : (m.any fun p => p.1 == k) = false := by
      cases hh : (m.any fun p => p.1 == k)
      · rfl
      · exact absurd hh h
    rw [if_neg (by simp [h2]), find?_append_single m k v h2]
    rfl

/-- Inner plan draft of the concrete planner output (every id supplied,
so normalization needs no fallback digest). -/
def planDraftInner0 : Jsonish :=
  .obj [("roadmap", .arr [.obj [("id", .str "m1"), ("title", .str "M")]]),
        ("features", .arr [.obj [("id", .str "f1"), ("title", .str "F")]]),
        ("tasks", .arr [.obj [("id", .str "t1"), ("title", .str "T"),
                              ("role", .str "backend")]])]

/-- Planner output carrying the structured plan. -/
def planOutput0 : Jsonish := .obj [("plan", planDraftInner0)]

/-- Normalized plan content of the concrete output. -/
def planContent0 : PlanContent := normalizePlanDraft env0 planDraftInner0

/-- Dispatched planning task awaiting its result. -/
def planningTask0 : AgentTask :=
  { id := "plan-1", type := .planning, status := .pending,
    input := .null, createdAt := "t0", dispatchedAt := some "t0" }

/-- State already holding the snapshot of the same plan content created
at t1, plus the outstanding planning task. -/
def planStoredState : ProjectState :=
  { freshState with
    pendingTasks := [planningTask0]
    plans := [((normalizePlanSnapshot env0 planContent0 "t1").id,
               normalizePlanSnapshot env0 planContent0 "t1")] }

/-- Successful planning result delivering the same plan content at t2. -/
def planResult0 : AgentResult :=
  { taskId := "plan-1", status := .success, output := some planOutput0,
    completedAt := "t2" }

/-- C6 counterexample: delivering the same plan content a second time
replaces the stored snapshot — the entry under the deterministic id
afterwards carries createdAt t2, not the existing snapshot's t1, so the
existing snapshot is not kept unchanged. -/
theorem plan_overwrite_counterexample :
    recordGet
        (transitionState env0 planStoredState (.agent_result planResult0) "t2").newState.plans
        (normalizePlanSnapshot env0 planContent0 "t1").id =
      some (normalizePlanSnapshot env0 planContent0 "t2") ∧
    (normalizePlanSnapshot env0 planContent0 "t2").createdAt = "t2" ∧
    (normalizePlanSnapshot env0 planContent0 "t1").createdAt = "t1" := by
  refine ⟨rfl, rfl, rfl⟩

/-- C6 (amended): a structured plan in a planning result is normalized
to a snapshot whose id is the deterministic content digest (independent
of the clock), and is inserted by overwriting: the entry under that id
afterwards is the new snapshot (createdAt refreshed to now), the
existing same-id snapshot is replaced; currentPlanId is set to the id,
a plan approval is appended, the phase becomes awaiting_approval, and a
request_approval effect is emitted. -/
theorem planning_plan_snapshot (env : Env) (state : ProjectState)
    (result : AgentResult) (now : String) (task : AgentTask)
    (plan : PlanContent)
    (hfind : state.pendingTasks.find? (fun t => t.id == result.taskId) = some task)
    (htype : task.type = .planning)
    (hstat : result.status = .success)
    (hq : (parsePlanningOutputSM env result.output now).questions = [])
    (hp : (parsePlanningOutputSM env result.output now).plan = some plan) :
    (transitionState env state (.agent_result result) now).newState.plans =
      recordSet state.plans (normalizePlanSnapshot env plan now).id
        (normalizePlanSnapshot env plan now) ∧
    recordGet (transitionState env state (.agent_result result) now).newState.plans
        (normalizePlanSnapshot env plan now).id =
      some (normalizePlanSnapshot env plan now) ∧
    (∀ other : String, (normalizePlanSnapshot env plan other).id =
      (normalizePlanSnapshot env plan now).id) ∧
    (transitionState env state (.agent_result result) now).newState.currentPlanId =
      some (normalizePlanSnapshot env plan now).id ∧
    (transitionState env state (.agent_result result) now).newState.phase =
      ProjectPhase.awaiting_approval ∧
    (transitionState env state (.agent_result result) now).sideEffects =
      [.request_approval (createPlanApproval (normalizePlanSnapshot env plan now) now)] ∧
    (transitionState env state (.agent_result result) now).newState.approvals =
      state.approvals ++
        [createPlanApproval (normalizePlanSnapshot env plan now) now] := by
  have hred : transitionState env state (.agent_result result) now =
      handlePlanningResult env state result
        (applyResultStatus state.pendingTasks result) now (.agent_result result) := by
    simp only [transitionState, handleAgentResult, hfind, htype]
    simp
  have hbranch : handlePlanningResult env state result
      (applyResultStatus state.pendingTasks result) now (.agent_result result) =
      (let planSnapshot := normalizePlanSnapshot env plan now
       let plans := recordSet state.plans planSnapshot.id planSnapshot
       let approval := createPlanApproval planSnapshot now
       let approvals := state.approvals ++ [approval]
       let updatedDiscussion := appendDiscussion env
         (appendDiscussion env state.discussion now
           (((parsePlanningOutputSM env result.output now).discussion.getD []).map
             (·.toInput)) none) now
         [{ type := .plan, message := "Plan candidate ready for approval"
            timestamp := now
            metadata := some (.obj [("planId", .str planSnapshot.id)]) }]
         none
       { newState := applyTransition state (.agent_result result) state.phase
           .awaiting_approval now
           (fun s => { s with
             pendingTasks := applyResultStatus state.pendingTasks result,
             plans := plans,
             currentPlanId := some planSnapshot.id,
             approvals := approvals,
             discussion := updatedDiscussion })
         sideEffects := [.request_approval approval] }) := by
    unfold handlePlanningResult
    rw [if_neg (by simp [hstat])]
    dsimp only
    rw [hq, hp]
    simp
  rw [hred, hbranch]
  refine ⟨rfl, ?_, fun other => rfl, rfl, rfl, rfl, rfl⟩
  exact recordGet_recordSet ..

/-- C6 witness: the amended theorem applied to the concrete state that
already stores the same plan content. -/
theorem planning_plan_snapshot_witness :
    (transitionState env0 planStoredState (.agent_result planResult0) "t2").newState.plans =
      recordSet planStoredState.plans (normalizePlanSnapshot env0 planContent0 "t2").id
        (normalizePlanSnapshot env0 planContent0 "t2") ∧
    recordGet (transitionState env0 planStoredState (.agent_result planResult0) "t2").newState.plans
        (normalizePlanSnapshot env0 planContent0 "t2").id =
      some (normalizePlanSnapshot env0 planContent0 "t2") ∧
    (∀ other : String, (normalizePlanSnapshot env0 planContent0 other).id =
      (normalizePlanSnapshot env0 planContent0 "t2").id) ∧
    (transitionState env0 planStoredState (.agent_result planResult0) "t2").newState.currentPlanId =
      some (normalizePlanSnapshot env0 planContent0 "t2").id ∧
    (transitionState env0 planStoredState (.agent_result planResult0) "t2").newState.phase =
      ProjectPhase.awaiting_approval ∧
    (transitionState env0 planStoredState (.agent_result planResult0) "t2").sideEffects =
      [.request_approval (createPlanApproval (normalizePlanSnapshot env0 planContent0 "t2") "t2")] ∧
    (transitionState env0 planStoredState (.agent_result planResult0) "t2").newState.approvals =
      planStoredState.approvals ++
        [createPlanApproval (normalizePlanSnapshot env0 planContent0 "t2") "t2"] :=
  planning_plan_snapshot env0 planStoredState planResult0 "t2" planningTask0
    planContent0 rfl rfl rfl rfl rfl

/-! ## C7 -/

/-- C7 counterexample: after the first application of the agent_result
the task is terminal (completed), yet the second application of the
same intent does not leave the state unchanged — the version is bumped
again. -/
theorem agent_result_not_idempotent :
    ((transitionState env0 executingState (.agent_result execResult0) "t1").newState.pendingTasks.find?
        (fun t => t.id == "exec-1")).map (·.status) =
      some AgentTaskStatus.completed ∧
    (transitionState env0
        (transitionState env0 executingState (.agent_result execResult0) "t1").newState
        (.agent_result execResult0) "t1").newState ≠
      (transitionState env0 executingState (.agent_result execResult0) "t1").newState := by
  refine ⟨rfl, ?_⟩
  intro h
  exact absurd (congrArg ProjectState.version h) (by decide)

theorem map_id_of_mem {α : Type} (l : List α) (f : α → α)
    (h : ∀ a ∈ l, f a = a) : l.map f = l := by
  induction l with
  | nil => rfl
  | cons a t ih =>
    rw [List.map_cons, h a (List.mem_cons_self a t),
      ih (fun b hb => h b (List.mem_cons_of_mem a hb))]

/-- Re-setting a key to the value it already holds (at every binding of
that key) leaves the record unchanged. -/
theorem recordSet_self {α : Type} (m : List (String × α)) (k : String) (v : α)
    (hmem : (m.any fun p => p.1 == k) = true)
    (hall : ∀ p ∈ m, p.1 = k → p.2 = v) :
    recordSet m k v = m := by
  unfold recordSet
  rw [if_pos hmem]
  apply map_id_of_mem
  intro p hp
  by_cases hk : (p.1 == k) = true
  · rw [if_pos hk, show k = p.1 from (eq_of_beq hk).symm,
      show v = p.2 from (hall p hp (eq_of_beq hk)).symm]
  · rw [if_neg hk]

theorem agentResult_exec_red (env : Env) (state : ProjectState)
    (result : AgentResult) (now : String) (task : AgentTask)
    (hfind : state.pendingTasks.find? (fun t => t.id == result.taskId) = some task)
    (htype : task.type = .execution) :
    transitionState env state (.agent_result result) now =
      handleExecutionResult env state result
        (applyResultStatus state.pendingTasks result) now (.agent_result result) := by
  simp only [transitionState, handleAgentResult, hfind, htype]
  simp

/-- C7 (amended): re-applying the same agent_result to a state in which
the named task (and every task sharing its id) already carries the
terminal status that result maps to, and whose execution snapshot is
the one the first application computed, leaves the task list, the
execution snapshot and the phase unchanged — but the state still
changes: the version is incremented and one history record and one
discussion entry are appended. -/
theorem agent_result_second_application (env : Env) (state : ProjectState)
    (result : AgentResult) (now : String) (task : AgentTask)
    (ex : ExecutionState)
    (hfind : state.pendingTasks.find? (fun t => t.id == result.taskId) = some task)
    (htype : task.type = .execution)
    (hall : ∀ t ∈ state.pendingTasks, t.id = result.taskId →
      t.status = statusForResult result.status)
    (hexec : state.execution = some ex)
    (hres : ∀ p ∈ ex.results, p.1 = result.taskId → p.2 = result)
    (hresMem : ∃ p ∈ ex.results, p.1 = result.taskId)
    (hsum : ex.summary = buildExecutionSummary
      (state.pendingTasks.filter (fun t => t.type == AgentTaskType.execution)))
    (hfails : ex.failures = buildExecutionFailures state.pendingTasks ex.results)
    (hph1 : (decide (ex.summary.total > 0) &&
        (ex.summary.completed == ex.summary.total) &&
        (ex.failures.length == 0)) = true → state.phase = .completed)
    (hph2 : (decide (ex.summary.total > 0) &&
        (ex.summary.completed == ex.summary.total) &&
        (ex.failures.length == 0)) = false →
      (decide (ex.failures.length > 0) &&
        (ex.summary.total - ex.summary.completed - ex.summary.failed == 0)) = true →
      state.phase = .error) :
    (transitionState env state (.agent_result result) now).newState.pendingTasks =
      state.pendingTasks ∧
    (transitionState env state (.agent_result result) now).newState.execution =
      some ex ∧
    (transitionState env state (.agent_result result) now).newState.phase =
      state.phase ∧
    (transitionState env state (.agent_result result) now).newState.version =
      state.version + 1 ∧
    (transitionState env state (.agent_result result) now).newState.discussion.length =
      state.discussion.length + 1 ∧
    (transitionState env state (.agent_result result) now).newState.history.length =
      state.history.length + 1 := by
  have hts : applyResultStatus state.pendingTasks result = state.pendingTasks := by
    unfold applyResultStatus
    apply map_id_of_mem
    intro t ht
    by_cases hid : (t.id == result.taskId) = true
    · rw [if_pos hid, show statusForResult result.status = t.status from
        (hall t ht (eq_of_beq hid)).symm]
    · rw [if_neg hid]
  have hmem : (ex.results.any fun p => p.1 == result.taskId) = true := by
    rcases hresMem with ⟨p, hp, hpk⟩
    exact List.any_eq_true.mpr ⟨p, hp, by simp [hpk]⟩
  have hupd : updateExecutionState state.execution state.pendingTasks result = ex := by
    rw [hexec]
    unfold updateExecutionState
    dsimp only
    rw [recordSet_self ex.results result.taskId result hmem hres, ← hsum, ← hfails]
  have hred := agentResult_exec_red env state result now task hfind htype
  rw [hts] at hred
  rw [hred]
  unfold handleExecutionResult
  dsimp only
  rw [hupd]
  refine ⟨rfl, rfl, ?_, rfl, ?_, ?_⟩
  · rw [applyTransition_phase]
    by_cases hc1 : (decide (ex.summary.total > 0) &&
        (ex.summary.completed == ex.summary.total) &&
        (ex.failures.length == 0)) = true
    · rw [if_pos hc1, hph1 hc1]
    · have hc1f : (decide (ex.summary.total > 0) &&
          (ex.summary.completed == ex.summary.total) &&
          (ex.failures.length == 0)) = false := by
        cases hx : (decide (ex.summary.total > 0) &&
          (ex.summary.completed == ex.summary.total) &&
          (ex.failures.length == 0))
        · rfl
        · exact absurd hx hc1
      rw [if_neg hc1]
      by_cases hc2 : (decide (ex.failures.length > 0) &&
          (ex.summary.total - ex.summary.completed - ex.summary.failed == 0)) = true
      · rw [if_pos hc2, hph2 hc1f hc2]
      · rw [if_neg hc2]
  · simp [applyTransition, appendDiscussion]
  · simp [applyTransition]

/-- State after the first application of the agent_result: the task is
already terminal. -/
def secondState : ProjectState :=
  (transitionState env0 executingState (.agent_result execResult0) "t1").newState

/-- Execution snapshot held by that state. -/
def secondEx : ExecutionState :=
  updateExecutionState executingState.execution
    (applyResultStatus executingState.pendingTasks execResult0) execResult0

/-- C7 witness: the amended theorem applied to the state produced by
the first application, feeding the same result again. -/
theorem agent_result_second_application_witness :
    (transitionState env0 secondState (.agent_result execResult0) "t2").newState.pendingTasks =
      secondState.pendingTasks ∧
    (transitionState env0 secondState (.agent_result execResult0) "t2").newState.execution =
      some secondEx ∧
    (transitionState env0 secondState (.agent_result execResult0) "t2").newState.phase =
      secondState.phase ∧
    (transitionState env0 secondState (.agent_result execResult0) "t2").newState.version =
      secondState.version + 1 ∧
    (transitionState env0 secondState (.agent_result execResult0) "t2").newState.discussion.length =
      secondState.discussion.length + 1 ∧
    (transitionState env0 secondState (.agent_result execResult0) "t2").newState.history.length =
      secondState.history.length + 1 :=
  agent_result_second_application env0 secondState execResult0 "t2"
    { execTask0 with status := .completed } secondEx
    rfl rfl (by decide) rfl
    (fun p hp _ => by rcases List.mem_singleton.mp hp with rfl; rfl)
    ⟨("exec-1", execResult0), List.mem_singleton.mpr rfl, rfl⟩
    rfl rfl (fun _ => rfl)
    (fun hfalse _ => absurd hfalse (by decide))

end AgentManager
